import Mathlib

/-!
The package go2dpf: the framing and acknowledgement protocol of `dpf.go`

A shallow embedding of `src/dpf.go`.

* A Go `[]byte` is a `List Nat`; a slice that may be `nil` is an
  `Option (List Nat)` (`none` is `nil`).
* A Go `int` is an `Int`; `byte(x)` is `x % 256`, `x >> k` is the arithmetic
  shift `x >>> k` by a natural number `k`, and `x - 1` wraps at 64 bits.
* The two bulk endpoints are functions of the transfers issued so far, so an
  endpoint may answer in any way that depends on the history of the bus.
* Every operation threads a `World`: the bulk transfers issued so far and the
  lines written by `log.Printf`.
* A result of type `Option _` is `none` when the Go code stops with a run-time
  fault (a `make` length that is negative or above the allocator limit, an
  index out of range).
* `OpenDpf` and `Close` are followed through the steps in the life of the
  resources of the USB library: which are acquired and which are released, in
  which order.
-/

namespace Go2dpf

/-! ## Constants -/

/-- Vendor ID of the frames. -/
def ax206vid : Nat := 0x1908

/-- Product ID of the frames. -/
def ax206pid : Nat := 0x0102

def usbCmdSetProperty : Nat := 0x01

def usbCmdBlit : Nat := 0x12

/-! ## Machine integers and slices -/

/-- Conversion `byte(x)` of a Go `int`: the low eight bits. -/
def toByte (x : Int) : Nat := (x % 256).toNat

/-- Reduction of an integer to the range of a 64-bit signed Go `int`. -/
def wrapInt (x : Int) : Int := (x + 2 ^ 63) % 2 ^ 64 - 2 ^ 63

/-- Builtin `len` of a slice that may be `nil`. -/
def sliceLen (s : Option (List Nat)) : Nat :=
  match s with
  | none => 0
  | some bytes => bytes.length

/-- Builtin `copy(dst, src)`: the first `min (len dst) (len src)` bytes of
`dst` are overwritten by those of `src`. -/
def copy (dst src : List Nat) : List Nat :=
  src.take (min dst.length src.length) ++ dst.drop (min dst.length src.length)

/-- Index expression `s[i]` of a slice that may be `nil`; `none` is the
index-out-of-range fault. -/
def index (s : Option (List Nat)) (i : Nat) : Option Nat :=
  match s with
  | none => none
  | some bytes => bytes[i]?

/-! ## Errors, transfers, endpoints -/

/-- Errors of the package: `usb` is an error value of the USB library, every
other constructor is one `fmt.Errorf` format string of `dpf.go` with its
argument. -/
inductive Error where
  /-- An error reported by a bulk transfer. -/
  | usb (code : Nat)
  /-- Format "Failed to read ACK: %w". -/
  | failedReadAck (cause : Error)
  /-- Format "Invalid ACK: %x". -/
  | invalidAck (bytes : List Nat)
  /-- Format "Failed to send SCSI command: %w". -/
  | failedSendCommand (cause : Error)
  /-- Format "Failed to send SCSI data: %w". -/
  | failedSendData (cause : Error)
  /-- Format "Failed to send SCSI read command: %w". -/
  | failedSendReadCommand (cause : Error)
  /-- Format "Failed to read SCSI data: %w". -/
  | failedReadData (cause : Error)
  deriving DecidableEq, Repr

/-- One bulk transfer on the bus. -/
inductive Transfer where
  /-- A write of `data` to the OUT endpoint. -/
  | write (data : List Nat)
  /-- A read from the IN endpoint into a buffer of `len` bytes. -/
  | read (len : Nat)
  deriving DecidableEq, Repr

/-- One line written by `log.Printf`. -/
inductive LogLine where
  /-- Format "SCSI CMD PREP: %x". -/
  | cmdPrep (buf : List Nat)
  /-- Format "Got ACK: %x". -/
  | gotAck (buf : List Nat)
  /-- Format "Read data: %x". -/
  | readData (buf : List Nat)
  deriving DecidableEq, Repr

/-- The bulk OUT endpoint: given the transfers issued before and the bytes to
write, the number of bytes written and the error, if any. -/
structure OutEndpoint where
  Write : List Transfer → List Nat → Nat × Option Error

/-- The bulk IN endpoint: given the transfers issued before and the length of
the buffer, the bytes the device delivers and the error, if any. -/
structure InEndpoint where
  Read : List Transfer → Nat → List Nat × Option Error

/-- The observable state: the bulk transfers issued so far (oldest first) and
the log. -/
structure World where
  trace : List Transfer
  log : List LogLine
  deriving DecidableEq, Repr

/-- The device handle. The pointers `ctx`, `dev` and `intf` are `true` when
they are not `nil`; they are read by `Close` only. The endpoints are those of
an open handle (not `nil`). -/
structure DPF where
  Width : Int
  Height : Int
  Debug : Bool
  ctx : Bool
  dev : Bool
  intf : Bool
  epOut : OutEndpoint
  epIn : InEndpoint

/-- Call `ep.Write(buf)`: the transfer is recorded and the endpoint answers
with `(n, err)`. -/
def epWrite (ep : OutEndpoint) (buf : List Nat) (w : World) :
    (Nat × Option Error) × World :=
  (ep.Write w.trace buf, { w with trace := w.trace ++ [Transfer.write buf] })

/-- Call `ep.Read(buf)`: the transfer is recorded; the library stores at most
`len(buf)` delivered bytes at the start of `buf` and answers with their number
`n` and the error. The result is `(buf, n, err)`. -/
def epRead (ep : InEndpoint) (buf : List Nat) (w : World) :
    (List Nat × Nat × Option Error) × World :=
  let r := ep.Read w.trace buf.length
  ((copy buf r.1, min r.1.length buf.length, r.2),
    { w with trace := w.trace ++ [Transfer.read buf.length] })

/-- Call `log.Printf` when `d.Debug` is set. -/
def debugLog (d : DPF) (line : LogLine) (w : World) : World :=
  if d.Debug then { w with log := w.log ++ [line] } else w

/-! ## Opening and closing the device -/

/-- The resources of the USB library that `OpenDpf` acquires, each of which
has a `Close` method. -/
inductive Resource where
  /-- The context made by `gousb.NewContext()`. -/
  | ctx
  /-- The device opened by `ctx.OpenDeviceWithVIDPID`. -/
  | dev
  /-- The configuration claimed by `dev.Config`. -/
  | cfg
  /-- The interface claimed by `cfg.Interface`. -/
  | intf
  deriving DecidableEq, Repr

/-- One step in the life of a resource. -/
inductive ResEvent where
  /-- The library call that makes the resource succeeded. -/
  | acquire (r : Resource)
  /-- The method `Close` of the resource was called. -/
  | release (r : Resource)
  deriving DecidableEq, Repr

/-- Errors of `OpenDpf`: one constructor for each `fmt.Errorf` format string of
the function, with its argument. -/
inductive OpenError where
  /-- Format "Failed to open device: %v". -/
  | failedOpenDevice (cause : Error)
  /-- Format "Device %04x:%04x not found". -/
  | notFound (vid pid : Nat)
  /-- Format "Failed to auto-detach kernel driver: %v". -/
  | failedAutoDetach (cause : Error)
  /-- Format "Failed to set config: %v". -/
  | failedSetConfig (cause : Error)
  /-- Format "Failed to claim interface: %v". -/
  | failedClaimInterface (cause : Error)
  /-- Format "Failed to open OUT endpoint: %v". -/
  | failedOpenOut (cause : Error)
  /-- Format "Failed to open IN endpoint: %v". -/
  | failedOpenIn (cause : Error)
  deriving DecidableEq, Repr

/-- The answers of the USB library to the calls of `OpenDpf`, one field for
each value a call returns. `gousb.NewContext()` always returns a context.
`OpenDeviceWithVIDPID` returns a device (`openDev` is `true` when it is not
`nil`) and an error; the other calls return their error, and the two endpoint
calls the endpoint as well. -/
structure UsbLibrary where
  openDev : Bool
  openErr : Option Error
  autoDetachErr : Option Error
  configErr : Option Error
  interfaceErr : Option Error
  epOut : OutEndpoint
  epOutErr : Option Error
  epIn : InEndpoint
  epInErr : Option Error

/-- Function `OpenDpf`. The result is `(handle, err)` and the steps in the life
of the resources, oldest first. A resource is acquired when the call that makes
it returns no error (and, for the device, a device that is not `nil`). -/
def OpenDpf (usb : UsbLibrary) : (Option DPF × Option OpenError) × List ResEvent :=
  let ev := [ResEvent.acquire Resource.ctx]
  match usb.openErr with
  | some err =>
    ((none, some (OpenError.failedOpenDevice err)), ev ++ [ResEvent.release Resource.ctx])
  | none =>
    if usb.openDev = false then
      ((none, some (OpenError.notFound ax206vid ax206pid)),
        ev ++ [ResEvent.release Resource.ctx])
    else
      let ev := ev ++ [ResEvent.acquire Resource.dev]
      match usb.autoDetachErr with
      | some err =>
        ((none, some (OpenError.failedAutoDetach err)),
          ev ++ [ResEvent.release Resource.dev, ResEvent.release Resource.ctx])
      | none =>
        match usb.configErr with
        | some err =>
          ((none, some (OpenError.failedSetConfig err)),
            ev ++ [ResEvent.release Resource.dev, ResEvent.release Resource.ctx])
        | none =>
          let ev := ev ++ [ResEvent.acquire Resource.cfg]
          match usb.interfaceErr with
          | some err =>
            ((none, some (OpenError.failedClaimInterface err)),
              ev ++ [ResEvent.release Resource.cfg, ResEvent.release Resource.dev,
                ResEvent.release Resource.ctx])
          | none =>
            let ev := ev ++ [ResEvent.acquire Resource.intf]
            match usb.epOutErr with
            | some err =>
              ((none, some (OpenError.failedOpenOut err)),
                ev ++ [ResEvent.release Resource.intf, ResEvent.release Resource.cfg,
                  ResEvent.release Resource.dev, ResEvent.release Resource.ctx])
            | none =>
              match usb.epInErr with
              | some err =>
                ((none, some (OpenError.failedOpenIn err)),
                  ev ++ [ResEvent.release Resource.intf, ResEvent.release Resource.cfg,
                    ResEvent.release Resource.dev, ResEvent.release Resource.ctx])
              | none =>
                ((some {
                    Width := 0, Height := 0, Debug := false,
                    ctx := true,
                    dev := true,
                    intf := true,
                    epOut := usb.epOut,
                    epIn := usb.epIn }, none), ev)

/-- Method `Close`: the calls of `Close` it makes on the resources, in order. -/
def Close (d : DPF) : List ResEvent :=
  (if d.intf then [ResEvent.release Resource.intf] else []) ++
  (if d.dev then [ResEvent.release Resource.dev] else []) ++
  (if d.ctx then [ResEvent.release Resource.ctx] else [])

/-! ## The operations of `dpf.go` -/

/-- The ASCII bytes of "USBS". -/
def USBS : List Nat := [0x55, 0x53, 0x42, 0x53]

/-- Method `scsiCmdPrepare`: the 31-byte command block wrapper. -/
def scsiCmdPrepare (d : DPF) (cmd : List Nat) (blockLen : Int) (out : Bool) (w : World) :
    List Nat × World :=
  let bmCBWFlags : Nat := if out then 0x00 else 0x80
  let buf : List Nat := [
    0x55, 0x53, 0x42, 0x43,
    0xde, 0xad, 0xbe, 0xef,
    toByte blockLen, toByte (blockLen >>> (8 : Nat)),
    toByte (blockLen >>> (16 : Nat)), toByte (blockLen >>> (24 : Nat)),
    bmCBWFlags,
    0x00, toByte cmd.length]
  let cmdBuf := List.replicate 16 0
  let cmdBuf := copy cmdBuf cmd
  let buf := buf ++ cmdBuf
  (buf, debugLog d (LogLine.cmdPrep buf) w)

/-- Method `scsiGetAck`: read and check the 13-byte status. -/
def scsiGetAck (d : DPF) (w : World) : Option Error × World :=
  let buf := List.replicate 13 0
  match epRead d.epIn buf w with
  | ((buf, n, err), w) =>
    match err with
    | some e => (some (Error.failedReadAck e), w)
    | none =>
      if n < 4 ∨ buf.take 4 ≠ USBS then
        (some (Error.invalidAck (buf.take n)), w)
      else
        (none, debugLog d (LogLine.gotAck (buf.take n)) w)

/-- Method `scsiWrite`: frame, optional data stage, status. -/
def scsiWrite (d : DPF) (cmd : List Nat) (data : Option (List Nat)) (w : World) :
    Option Error × World :=
  match scsiCmdPrepare d cmd (sliceLen data) true w with
  | (header, w) =>
    match epWrite d.epOut header w with
    | ((_, some e), w) => (some (Error.failedSendCommand e), w)
    | ((_, none), w) =>
      match data with
      | some bytes =>
        match epWrite d.epOut bytes w with
        | ((_, some e), w) => (some (Error.failedSendData e), w)
        | ((_, none), w) => scsiGetAck d w
      | none => scsiGetAck d w

/-- The largest length that `make([]byte, n)` accepts: the limit `maxAlloc` of
the allocator of the Go runtime, `1 << 48` on the 64-bit platforms (such as
linux/amd64) where `int` has 64 bits. -/
def maxAlloc : Int := 2 ^ 48

/-- Method `scsiRead`: frame, data stage from the device, status. The outer
`Option` is `none` when `make([]byte, blockLen)` faults: on a negative length
and on a length above `maxAlloc` ("len out of range"). An allocation within
the limit is taken to succeed. -/
def scsiRead (d : DPF) (cmd : List Nat) (blockLen : Int) (w : World) :
    Option (Option (List Nat) × Option Error) × World :=
  match scsiCmdPrepare d cmd blockLen false w with
  | (header, w) =>
    match epWrite d.epOut header w with
    | ((_, some e), w) => (some (none, some (Error.failedSendReadCommand e)), w)
    | ((_, none), w) =>
      if blockLen < 0 ∨ maxAlloc < blockLen then (none, w)
      else
        let buf := List.replicate blockLen.toNat 0
        match epRead d.epIn buf w with
        | ((_, _, some e), w) => (some (none, some (Error.failedReadData e)), w)
        | ((buf, n, none), w) =>
          let w := debugLog d (LogLine.readData (buf.take n)) w
          match scsiGetAck d w with
          | (some e, w) => (some (some (buf.take n), some e), w)
          | (none, w) => (some (some (buf.take n), none), w)

/-- Method `GetDimensions`. The result is `some (width, height, err)`, or
`none` when an index expression `data[i]` faults. -/
def GetDimensions (dpf : DPF) (w : World) : Option (Int × Int × Option Error) × World :=
  let cmd : List Nat := [
    0xcd, 0, 0, 0,
    0, 2, 0, 0,
    0, 0, 0, 0,
    0, 0, 0, 0]
  match scsiRead dpf cmd 5 w with
  | (none, w) => (none, w)
  | (some (_, some e), w) => (some (0, 0, some e), w)
  | (some (data, none), w) =>
    let decoded : Option (Int × Int × Option Error) := do
      let d0 ← index data 0
      let d1 ← index data 1
      let width : Int := ((d0 ||| d1 <<< 8 : Nat) : Int)
      let d2 ← index data 2
      let d3 ← index data 3
      let height : Int := ((d2 ||| d3 <<< 8 : Nat) : Int)
      pure (width, height, none)
    (decoded, w)

/-- Method `GetDimensions` together with the receiver `*dpf` as the call leaves
it: no statement of the method assigns to a field of the receiver, so the
handle is handed back as it came in. The named results `width` and `height` are
local variables of the method, not the fields `Width` and `Height`. -/
def GetDimensionsOn (dpf : DPF) (w : World) :
    (Option (Int × Int × Option Error) × DPF) × World :=
  (((GetDimensions dpf w).1, dpf), (GetDimensions dpf w).2)

/-- Method `Brightness`. -/
def Brightness (dpf : DPF) (lvl : Int) (w : World) : Option Error × World :=
  let lvl := if lvl < 0 then 0 else lvl
  let lvl := if lvl > 7 then 7 else lvl
  let cmd : List Nat := [
    0xcd, 0, 0, 0,
    0, 6, usbCmdSetProperty,
    1, 0,
    toByte lvl, toByte (lvl >>> (8 : Nat)),
    0, 0, 0, 0, 0]
  scsiWrite dpf cmd none w

/-- Type `image.Point`. -/
structure Point where
  X : Int
  Y : Int
  deriving DecidableEq, Repr

/-- Type `image.Rectangle`. -/
structure Rectangle where
  Min : Point
  Max : Point
  deriving DecidableEq, Repr

/-- Modelled from the spec: the type `ImageRGB565` is declared outside
`dpf.go`. It is "a pixel buffer plus bounding rectangle"; `Blit` reads only the
field `Rect` and the slice returned by the method `PixRect()`, which is the
field `PixRect` here. -/
structure ImageRGB565 where
  Rect : Rectangle
  PixRect : Option (List Nat)

/-- Method `Blit`. -/
def Blit (dpf : DPF) (img : ImageRGB565) (w : World) : Option Error × World :=
  let r := img.Rect
  let cmd : List Nat := [
    0xcd, 0, 0, 0,
    0, 6, usbCmdBlit,
    toByte r.Min.X, toByte (r.Min.X >>> (8 : Nat)),
    toByte r.Min.Y, toByte (r.Min.Y >>> (8 : Nat)),
    toByte (wrapInt (r.Max.X - 1)), toByte (wrapInt (r.Max.X - 1) >>> (8 : Nat)),
    toByte (wrapInt (r.Max.Y - 1)), toByte (wrapInt (r.Max.Y - 1) >>> (8 : Nat)),
    0]
  scsiWrite dpf cmd img.PixRect w

/-! ## Concrete endpoints and worlds used by the examples -/

/-- The world before any transfer. -/
def World.start : World := { trace := [], log := [] }

/-- An OUT endpoint that accepts every write in full. -/
def okOut : OutEndpoint := { Write := fun _ buf => (buf.length, none) }

/-- An IN endpoint that answers the `k`-th transfer of the bus (counted from 0)
with the `k`-th entry of `script`, and with nothing once the script is over. -/
def scriptedIn (script : List (List Nat × Option Error)) : InEndpoint :=
  { Read := fun hist _ => (script[hist.length]?).getD ([], none) }

/-- A valid 13-byte status. -/
def goodStatus : List Nat := [0x55, 0x53, 0x42, 0x53, 0xde, 0xad, 0xbe, 0xef, 0, 0, 0, 0, 0]

/-- A handle over the given endpoints, with logging off. -/
def handle (epOut : OutEndpoint) (epIn : InEndpoint) : DPF :=
  { Width := 0, Height := 0, Debug := false, ctx := true, dev := true, intf := true,
    epOut := epOut, epIn := epIn }

/-- An OUT endpoint that reports no error and no byte written, whatever the
write. -/
def shortOut : OutEndpoint := { Write := fun _ _ => (0, none) }

/-- A USB library whose calls all succeed, with the given endpoints. -/
def okUsb (epOut : OutEndpoint) (epIn : InEndpoint) : UsbLibrary :=
  { openDev := true, openErr := none, autoDetachErr := none, configErr := none,
    interfaceErr := none, epOut := epOut, epOutErr := none, epIn := epIn, epInErr := none }

/-! ## Definitions that follow the specification's words -/

/-- The two bytes of `n` in little-endian order. -/
def le16 (n : Nat) : List Nat := [n % 256, n / 256 % 256]

/-- The four bytes of `n` in little-endian order. -/
def le32 (n : Nat) : List Nat := [n % 256, n / 256 % 256, n / 65536 % 256, n / 16777216 % 256]

/-- The number a list of bytes encodes in little-endian order. -/
def leDecode : List Nat → Nat
  | [] => 0
  | b :: rest => b + 256 * leDecode rest

/-- The kind of an error: the format string that made it, without its
arguments. -/
inductive ErrorKind where
  | usb
  | failedReadAck
  | invalidAck
  | failedSendCommand
  | failedSendData
  | failedSendReadCommand
  | failedReadData
  deriving DecidableEq, Repr

/-- The kind of an error. -/
def Error.kind : Error → ErrorKind
  | Error.usb _ => ErrorKind.usb
  | Error.failedReadAck _ => ErrorKind.failedReadAck
  | Error.invalidAck _ => ErrorKind.invalidAck
  | Error.failedSendCommand _ => ErrorKind.failedSendCommand
  | Error.failedSendData _ => ErrorKind.failedSendData
  | Error.failedSendReadCommand _ => ErrorKind.failedSendReadCommand
  | Error.failedReadData _ => ErrorKind.failedReadData

/-- The steps in which the resources `acq` are acquired in order and then
released, each once, in the reverse order. -/
def acquiredThenReleased (acq : List Resource) : List ResEvent :=
  acq.map ResEvent.acquire ++ acq.reverse.map ResEvent.release

/-- The value `clamp(x, lo, hi)`. -/
def clamp (x lo hi : Int) : Int := max lo (min x hi)

/-- Whether the endpoints of `d` report a transport error for the transfer `t`
issued after the transfers `hist`. -/
def transferFails (d : DPF) (hist : List Transfer) : Transfer → Bool
  | Transfer.write data => (d.epOut.Write hist data).2.isSome
  | Transfer.read len => (d.epIn.Read hist len).2.isSome

/-- The transfers of `plan` that are issued when the sequence stops at the
first transfer that reports a transport error: the plan up to and including
that transfer, the whole plan when there is none. -/
def issuedOf (d : DPF) : List Transfer → List Transfer → List Transfer
  | _, [] => []
  | hist, t :: rest =>
    if transferFails d hist t then [t] else t :: issuedOf d (hist ++ [t]) rest

/-- Whether some transfer of `plan` that is issued reports a transport error. -/
def planFails (d : DPF) : List Transfer → List Transfer → Bool
  | _, [] => false
  | hist, t :: rest => transferFails d hist t || planFails d (hist ++ [t]) rest

/-- The sequence of a write command: the frame, the data stage when `data` is
not `nil`, the 13-byte status. -/
def writePlan (frame : List Nat) (data : Option (List Nat)) : List Transfer :=
  [Transfer.write frame] ++
    (match data with
      | some bytes => [Transfer.write bytes]
      | none => []) ++
    [Transfer.read 13]

/-- The sequence of a read command: the frame, the data stage of up to
`blockLen` bytes, the 13-byte status. -/
def readPlan (frame : List Nat) (blockLen : Nat) : List Transfer :=
  [Transfer.write frame, Transfer.read blockLen, Transfer.read 13]

/-- The frame of the dimensions query: a read of 5 bytes with the fixed
16-byte command block. -/
def dimensionsFrame : List Nat := [
  0x55, 0x53, 0x42, 0x43, 0xde, 0xad, 0xbe, 0xef, 0x05, 0x00, 0x00, 0x00, 0x80, 0x00, 0x10,
  0xcd, 0, 0, 0, 0, 2, 0, 0, 0, 0, 0, 0, 0, 0, 0, 0]

/-! ## Lemmas on bytes and slices -/

theorem leDecode_le32 (n : Nat) (h : n < 2 ^ 32) : leDecode (le32 n) = n := by
  simp only [le32, leDecode]
  omega

theorem toByte_natCast (n : Nat) : toByte (n : Int) = n % 256 := by
  simp only [toByte]
  norm_cast

theorem toByte_of_nonneg (x : Int) (h : 0 ≤ x) : toByte x = x.toNat % 256 := by
  obtain ⟨n, rfl⟩ := Int.eq_ofNat_of_zero_le h
  simp [toByte_natCast]

theorem toByte_small (x : Int) (h0 : 0 ≤ x) (h1 : x < 256) : toByte x = x.toNat := by
  rw [toByte_of_nonneg x h0]
  omega

theorem toByte_shiftRight (x : Int) (k : Nat) (h : 0 ≤ x) :
    toByte (x >>> k) = x.toNat / 2 ^ k % 256 := by
  obtain ⟨n, rfl⟩ := Int.eq_ofNat_of_zero_le h
  simp only [toByte, Int.shiftRight_eq_div_pow, Int.toNat_ofNat]
  norm_cast

theorem toByte_shiftRight8 (x : Int) (h0 : 0 ≤ x) :
    toByte (x >>> (8 : Nat)) = x.toNat / 256 % 256 := by
  simpa using toByte_shiftRight x 8 h0

theorem wrapInt_of_range (x : Int) (h0 : -2 ^ 63 ≤ x) (h1 : x < 2 ^ 63) : wrapInt x = x := by
  unfold wrapInt
  omega

theorem byte_or_shift (a b : Nat) (h : a < 256) : a ||| b <<< 8 = a + 256 * b := by
  have hlt : a < 2 ^ 8 := by simpa using h
  rw [Nat.lor_comm, Nat.shiftLeft_eq, Nat.mul_comm b, ← Nat.mul_add_lt_is_or hlt]
  omega

theorem copy_length (dst src : List Nat) : (copy dst src).length = dst.length := by
  simp only [copy, List.length_append, List.length_take, List.length_drop]
  omega

theorem copy_zeros (cmd : List Nat) (h : cmd.length ≤ 16) :
    copy (List.replicate 16 0) cmd = cmd ++ List.replicate (16 - cmd.length) 0 := by
  simp only [copy, List.length_replicate, Nat.min_eq_right h, List.drop_replicate,
    List.take_of_length_le (le_refl _)]

theorem copy_take (dst src : List Nat) (k : Nat) (h : k ≤ min dst.length src.length) :
    (copy dst src).take k = src.take k := by
  unfold copy
  rw [List.take_append_of_le_length (by simp; omega), List.take_take]
  congr 1
  omega

theorem copy_replicate_take (resp : List Nat) (k : Nat) :
    (copy (List.replicate k 0) resp).take (min resp.length k) = resp.take k := by
  rw [copy_take _ _ _ (by simp), List.take_eq_take]
  omega

/-! ## Lemmas on the sequence of transfers -/

theorem issuedOf_prefix (d : DPF) (plan : List Transfer) :
    ∀ hist, issuedOf d hist plan <+: plan := by
  induction plan with
  | nil => intro hist; simp [issuedOf]
  | cons t rest ih =>
    intro hist
    simp only [issuedOf]
    split
    · exact ⟨rest, rfl⟩
    · exact (List.prefix_cons_inj t).2 (ih _)

theorem issuedOf_of_not_fails (d : DPF) (plan : List Transfer) :
    ∀ hist, planFails d hist plan = false → issuedOf d hist plan = plan := by
  induction plan with
  | nil => intro hist _; rfl
  | cons t rest ih =>
    intro hist hf
    simp only [planFails, Bool.or_eq_false_iff] at hf
    simp only [issuedOf, hf.1, Bool.false_eq_true, if_false, ih _ hf.2]

theorem debugLog_trace (d : DPF) (line : LogLine) (w : World) :
    (debugLog d line w).trace = w.trace := by
  unfold debugLog
  split <;> rfl

theorem scsiCmdPrepare_trace (d : DPF) (cmd : List Nat) (blockLen : Int) (out : Bool)
    (w : World) : (scsiCmdPrepare d cmd blockLen out w).2.trace = w.trace := by
  simp only [scsiCmdPrepare, debugLog_trace]

theorem scsiCmdPrepare_length (d : DPF) (cmd : List Nat) (blockLen : Int) (out : Bool)
    (w : World) : (scsiCmdPrepare d cmd blockLen out w).1.length = 31 := by
  simp [scsiCmdPrepare, copy_length]

/-- The frame for a command block of at most 16 bytes and a length that is not
negative. -/
theorem scsiCmdPrepare_bytes (d : DPF) (cmd : List Nat) (blockLen : Int) (out : Bool)
    (w : World) (hcmd : cmd.length ≤ 16) (h0 : 0 ≤ blockLen) :
    (scsiCmdPrepare d cmd blockLen out w).1 =
      [0x55, 0x53, 0x42, 0x43, 0xDE, 0xAD, 0xBE, 0xEF] ++ le32 blockLen.toNat ++
        [if out then 0x00 else 0x80, 0x00, cmd.length] ++ cmd ++
        List.replicate (16 - cmd.length) 0 := by
  have hs8 : toByte (blockLen >>> (8 : Nat)) = blockLen.toNat / 256 % 256 := by
    simpa using toByte_shiftRight blockLen 8 h0
  have hs16 : toByte (blockLen >>> (16 : Nat)) = blockLen.toNat / 65536 % 256 := by
    simpa using toByte_shiftRight blockLen 16 h0
  have hs24 : toByte (blockLen >>> (24 : Nat)) = blockLen.toNat / 16777216 % 256 := by
    simpa using toByte_shiftRight blockLen 24 h0
  have hl : toByte (cmd.length : Int) = cmd.length := by
    rw [toByte_natCast]; omega
  simp only [scsiCmdPrepare, copy_zeros cmd hcmd, hs8, hs16, hs24, toByte_of_nonneg _ h0, hl, le32]
  cases out <;> simp

theorem scsiGetAck_trace (d : DPF) (w : World) :
    (scsiGetAck d w).2.trace = w.trace ++ [Transfer.read 13] := by
  simp only [scsiGetAck, epRead, debugLog, List.length_replicate]
  split
  · rfl
  · split_ifs <;> rfl

theorem scsiGetAck_none_iff (d : DPF) (w : World) :
    (scsiGetAck d w).1 = none ↔
      (d.epIn.Read w.trace 13).2 = none ∧ 4 ≤ (d.epIn.Read w.trace 13).1.length ∧
        (d.epIn.Read w.trace 13).1.take 4 = USBS := by
  simp only [scsiGetAck, epRead, List.length_replicate]
  rcases hr : d.epIn.Read w.trace 13 with ⟨resp, err⟩
  cases err with
  | some e => simp
  | none =>
    simp only [true_and]
    by_cases hlen : 4 ≤ resp.length
    · have ht : (copy (List.replicate 13 0) resp).take 4 = resp.take 4 :=
        copy_take _ _ _ (by simp; omega)
      rw [ht]
      have hn : ¬ resp.length < 4 := by omega
      by_cases hsig : resp.take 4 = USBS
      · simp [hsig, hlen, hn]
      · simp [hsig, hlen, hn]
    · have : min resp.length 13 < 4 := by omega
      simp [this, hlen]

theorem scsiWrite_trace (d : DPF) (cmd : List Nat) (data : Option (List Nat)) (w : World) :
    (scsiWrite d cmd data w).2.trace =
        w.trace ++ issuedOf d w.trace
          (writePlan (scsiCmdPrepare d cmd (sliceLen data) true w).1 data) ∧
      (planFails d w.trace (writePlan (scsiCmdPrepare d cmd (sliceLen data) true w).1 data)
          = true →
        ∃ e, (scsiWrite d cmd data w).1 = some e) := by
  have htr := scsiCmdPrepare_trace d cmd (sliceLen data) true w
  unfold scsiWrite
  rcases hp : scsiCmdPrepare d cmd (sliceLen data) true w with ⟨frame, w1⟩
  rw [hp] at htr
  simp only at htr
  simp only [epWrite, htr]
  rcases hw1 : d.epOut.Write w.trace frame with ⟨n1, err1⟩
  cases err1 with
  | some e1 =>
    simp [writePlan, issuedOf, planFails, transferFails, hw1]
  | none =>
    cases data with
    | none =>
      have hack := scsiGetAck_trace d { w1 with trace := w.trace ++ [Transfer.write frame] }
      have hiff := scsiGetAck_none_iff d { w1 with trace := w.trace ++ [Transfer.write frame] }
      simp only at hack hiff
      refine ⟨?_, ?_⟩
      · simp only [hack]
        simp [writePlan, issuedOf, transferFails, hw1]
      · intro hf
        simp only [writePlan, planFails, transferFails, hw1, List.nil_append, List.cons_append,
          List.append_nil] at hf
        cases hres : (scsiGetAck d { w1 with trace := w.trace ++ [Transfer.write frame] }).1 with
        | some e => exact ⟨e, rfl⟩
        | none =>
          have := (hiff.1 hres).1
          simp [this] at hf
    | some bytes =>
      simp only
      rcases hw2 : d.epOut.Write (w.trace ++ [Transfer.write frame]) bytes with ⟨n2, err2⟩
      cases err2 with
      | some e2 =>
        simp [writePlan, issuedOf, planFails, transferFails, hw1, hw2]
      | none =>
        have hack := scsiGetAck_trace d
          { w1 with trace := w.trace ++ [Transfer.write frame] ++ [Transfer.write bytes] }
        have hiff := scsiGetAck_none_iff d
          { w1 with trace := w.trace ++ [Transfer.write frame] ++ [Transfer.write bytes] }
        simp only at hack hiff
        refine ⟨?_, ?_⟩
        · simp only [hack]
          simp [writePlan, issuedOf, transferFails, hw1, hw2]
        · intro hf
          simp only [writePlan, planFails, transferFails, hw1, hw2, List.nil_append,
            List.cons_append, List.append_nil] at hf
          cases hres : (scsiGetAck d
            { w1 with trace := w.trace ++ [Transfer.write frame] ++ [Transfer.write bytes] }).1 with
          | some e => exact ⟨e, rfl⟩
          | none =>
            have := (hiff.1 hres).1
            simp only [List.append_assoc, List.singleton_append] at this
            simp [this] at hf

theorem scsiRead_trace (d : DPF) (cmd : List Nat) (blockLen : Int) (w : World)
    (h : 0 ≤ blockLen) (hmax : blockLen ≤ maxAlloc) :
    (scsiRead d cmd blockLen w).2.trace =
        w.trace ++ issuedOf d w.trace
          (readPlan (scsiCmdPrepare d cmd blockLen false w).1 blockLen.toNat) ∧
      (planFails d w.trace (readPlan (scsiCmdPrepare d cmd blockLen false w).1 blockLen.toNat)
          = true →
        ∃ data e, (scsiRead d cmd blockLen w).1 = some (data, some e)) := by
  have htr := scsiCmdPrepare_trace d cmd blockLen false w
  unfold scsiRead
  rcases hp : scsiCmdPrepare d cmd blockLen false w with ⟨frame, w1⟩
  rw [hp] at htr
  simp only at htr
  simp only [epWrite, htr]
  rcases hw1 : d.epOut.Write w.trace frame with ⟨n1, err1⟩
  cases err1 with
  | some e1 =>
    simp [readPlan, issuedOf, planFails, transferFails, hw1]
  | none =>
    have hneg : ¬ (blockLen < 0 ∨ maxAlloc < blockLen) := by omega
    simp only [hneg, if_false, epRead, List.length_replicate]
    rcases hr : d.epIn.Read (w.trace ++ [Transfer.write frame]) blockLen.toNat with ⟨resp, err2⟩
    cases err2 with
    | some e2 =>
      simp [readPlan, issuedOf, planFails, transferFails, hw1, hr]
    | none =>
      simp only
      generalize hw2 : debugLog d _ _ = w2
      have htr2 : w2.trace =
          w.trace ++ [Transfer.write frame] ++ [Transfer.read blockLen.toNat] := by
        rw [← hw2, debugLog_trace]
      have hack := scsiGetAck_trace d w2
      have hiff := scsiGetAck_none_iff d w2
      rw [htr2] at hack hiff
      rcases hres : scsiGetAck d w2 with ⟨ack, w3⟩
      rw [hres] at hack hiff
      simp only at hack hiff
      cases ack with
      | some e =>
        refine ⟨?_, fun _ => ⟨_, e, rfl⟩⟩
        simp only [hack]
        simp [readPlan, issuedOf, transferFails, hw1, hr]
      | none =>
        refine ⟨?_, ?_⟩
        · simp only [hack]
          simp [readPlan, issuedOf, transferFails, hw1, hr]
        · intro hf
          have := (hiff.1 rfl).1
          simp only [List.append_assoc, List.singleton_append] at this
          simp [readPlan, planFails, transferFails, hw1, hr, this] at hf

/-- What `scsiRead` returns once the frame is written and the data stage reports
no error. -/
theorem scsiRead_data (d : DPF) (cmd : List Nat) (blockLen : Int) (w : World)
    (resp : List Nat) (h0 : 0 ≤ blockLen) (hmax : blockLen ≤ maxAlloc)
    (hw : (d.epOut.Write w.trace (scsiCmdPrepare d cmd blockLen false w).1).2 = none)
    (hr : d.epIn.Read (w.trace ++ [Transfer.write (scsiCmdPrepare d cmd blockLen false w).1])
      blockLen.toNat = (resp, none)) :
    ∃ e, (scsiRead d cmd blockLen w).1 = some (some (resp.take blockLen.toNat), e) ∧
      (e = none ↔
        (d.epIn.Read (w.trace ++ [Transfer.write (scsiCmdPrepare d cmd blockLen false w).1,
            Transfer.read blockLen.toNat]) 13).2 = none ∧
          4 ≤ (d.epIn.Read (w.trace ++ [Transfer.write (scsiCmdPrepare d cmd blockLen false w).1,
            Transfer.read blockLen.toNat]) 13).1.length ∧
          (d.epIn.Read (w.trace ++ [Transfer.write (scsiCmdPrepare d cmd blockLen false w).1,
            Transfer.read blockLen.toNat]) 13).1.take 4 = USBS) := by
  have htr := scsiCmdPrepare_trace d cmd blockLen false w
  unfold scsiRead
  rcases hp : scsiCmdPrepare d cmd blockLen false w with ⟨frame, w1⟩
  rw [hp] at htr hw hr
  simp only at htr hw hr
  simp only [epWrite, htr]
  rcases hw1 : d.epOut.Write w.trace frame with ⟨n1, err1⟩
  rw [hw1] at hw
  simp only at hw
  subst hw
  have hneg : ¬ (blockLen < 0 ∨ maxAlloc < blockLen) := by omega
  simp only [hneg, if_false, epRead, List.length_replicate, hr, copy_replicate_take]
  generalize hw2 : debugLog d _ _ = w2
  have htr2 : w2.trace =
      w.trace ++ [Transfer.write frame] ++ [Transfer.read blockLen.toNat] := by
    rw [← hw2, debugLog_trace]
  have hiff := scsiGetAck_none_iff d w2
  rw [htr2] at hiff
  simp only [List.append_assoc, List.singleton_append] at hiff
  rcases hres : scsiGetAck d w2 with ⟨ack, w3⟩
  rw [hres] at hiff
  simp only at hiff
  cases ack with
  | some e => exact ⟨some e, rfl, hiff⟩
  | none => exact ⟨none, rfl, hiff⟩

theorem GetDimensions_frame (dpf : DPF) (w : World) :
    (scsiCmdPrepare dpf [0xcd, 0, 0, 0, 0, 2, 0, 0, 0, 0, 0, 0, 0, 0, 0, 0] 5 false w).1
      = dimensionsFrame := by
  rfl

theorem issuedOf_cons (d : DPF) (hist : List Transfer) (t : Transfer) (rest : List Transfer) :
    issuedOf d hist (t :: rest) =
      t :: (if transferFails d hist t then [] else issuedOf d (hist ++ [t]) rest) := by
  simp only [issuedOf]
  split <;> rfl

/-- The frame for a command block longer than 16 bytes: the block is cut to 16
bytes and the length byte is `len(cmd) mod 256`. -/
theorem scsiCmdPrepare_long (d : DPF) (cmd : List Nat) (blockLen : Int)
    (out : Bool) (w : World) (h : 16 < cmd.length) :
    (scsiCmdPrepare d cmd blockLen out w).1.drop 15 = cmd.take 16 ∧
      (scsiCmdPrepare d cmd blockLen out w).1[14]? = some (cmd.length % 256) := by
  have hmin : min 16 cmd.length = 16 := by omega
  constructor
  · simp [scsiCmdPrepare, copy, hmin]
  · simp [scsiCmdPrepare, toByte_natCast]

theorem toByte_mod (x : Int) : toByte x = (x % 65536).toNat % 256 := by
  unfold toByte
  omega

theorem toByte_shiftRight8_mod (x : Int) :
    toByte (x >>> (8 : Nat)) = (x % 65536).toNat / 256 % 256 := by
  unfold toByte
  rw [Int.shiftRight_eq_div_pow]
  norm_num
  omega

theorem wrapInt_emod (x : Int) : wrapInt x % 65536 = x % 65536 := by
  unfold wrapInt
  omega

/-- The command block of `Blit` for the coordinates reduced modulo 2^16. -/
theorem Blit_mod (dpf : DPF) (img : ImageRGB565) (w : World) :
    Blit dpf img w =
      scsiWrite dpf
        ([0xCD, 0, 0, 0, 0, 6, 0x12] ++ le16 (img.Rect.Min.X % 65536).toNat ++
          le16 (img.Rect.Min.Y % 65536).toNat ++
          le16 ((img.Rect.Max.X - 1) % 65536).toNat ++
          le16 ((img.Rect.Max.Y - 1) % 65536).toNat ++ [0x00])
        img.PixRect w := by
  simp only [Blit, usbCmdBlit, le16, toByte_shiftRight8_mod]
  simp only [toByte_mod, wrapInt_emod]
  rfl

/-- When `make` faults in `scsiRead`, the write of the frame is the only
transfer, and the call stops with the fault if that write reported no error. -/
theorem scsiRead_fault (d : DPF) (cmd : List Nat) (blockLen : Int) (w : World)
    (h : blockLen < 0 ∨ maxAlloc < blockLen) :
    (scsiRead d cmd blockLen w).2.trace =
        w.trace ++ [Transfer.write (scsiCmdPrepare d cmd blockLen false w).1] ∧
      ((d.epOut.Write w.trace (scsiCmdPrepare d cmd blockLen false w).1).2 = none →
        (scsiRead d cmd blockLen w).1 = none) := by
  have htr := scsiCmdPrepare_trace d cmd blockLen false w
  unfold scsiRead
  rcases hp : scsiCmdPrepare d cmd blockLen false w with ⟨frame, w1⟩
  rw [hp] at htr
  simp only at htr
  simp only [epWrite, htr]
  rcases hw1 : d.epOut.Write w.trace frame with ⟨n1, err1⟩
  cases err1 with
  | some e1 => simp
  | none => simp [h]

/-- When the write of the frame reports an error in `scsiRead`, it is the only
transfer. -/
theorem scsiRead_frame_error (d : DPF) (cmd : List Nat) (blockLen : Int) (w : World)
    (e : Error)
    (h : (d.epOut.Write w.trace (scsiCmdPrepare d cmd blockLen false w).1).2 = some e) :
    (scsiRead d cmd blockLen w).2.trace =
      w.trace ++ [Transfer.write (scsiCmdPrepare d cmd blockLen false w).1] := by
  have htr := scsiCmdPrepare_trace d cmd blockLen false w
  unfold scsiRead
  rcases hp : scsiCmdPrepare d cmd blockLen false w with ⟨frame, w1⟩
  rw [hp] at htr h
  simp only at htr h
  simp only [epWrite, htr]
  rcases hw1 : d.epOut.Write w.trace frame with ⟨n1, err1⟩
  rw [hw1] at h
  simp only at h
  subst h
  rfl

/-- If `scsiRead` issues an IN read at all, the write of the frame reported no
error and `make` accepted the length. -/
theorem scsiRead_issues_read (d : DPF) (cmd : List Nat) (blockLen : Int) (w : World)
    (len : Nat)
    (h : Transfer.read len ∈ (scsiRead d cmd blockLen w).2.trace.drop w.trace.length) :
    (d.epOut.Write w.trace (scsiCmdPrepare d cmd blockLen false w).1).2 = none ∧
      0 ≤ blockLen ∧ blockLen ≤ maxAlloc := by
  refine ⟨?_, ?_⟩
  · cases hw : (d.epOut.Write w.trace (scsiCmdPrepare d cmd blockLen false w).1).2 with
    | none => rfl
    | some e =>
      rw [scsiRead_frame_error d cmd blockLen w e hw, List.drop_left] at h
      simp at h
  · by_contra hb
    have hb' : blockLen < 0 ∨ maxAlloc < blockLen := by omega
    rw [(scsiRead_fault d cmd blockLen w hb').1, List.drop_left] at h
    simp at h

/-- The length field of the frame holds `blockLen` modulo 2^32, the flag byte
the direction and byte 14 `len(cmd)` modulo 256. -/
theorem scsiCmdPrepare_fields (d : DPF) (cmd : List Nat) (blockLen : Int) (out : Bool)
    (w : World) :
    leDecode (((scsiCmdPrepare d cmd blockLen out w).1.drop 8).take 4) =
        (blockLen % 2 ^ 32).toNat ∧
      (scsiCmdPrepare d cmd blockLen out w).1[12]? = some (if out then 0x00 else 0x80) ∧
      (scsiCmdPrepare d cmd blockLen out w).1[14]? = some (cmd.length % 256) := by
  refine ⟨?_, ?_, ?_⟩
  · simp only [scsiCmdPrepare, List.cons_append, List.nil_append, List.drop_succ_cons,
      List.drop_zero, List.take_succ_cons, List.take_zero, leDecode, toByte,
      Int.shiftRight_eq_div_pow]
    norm_num
    omega
  · simp [scsiCmdPrepare]
  · simp [scsiCmdPrepare, toByte_natCast]

/-- The first transfer of `scsiRead` is the write of the frame, whatever the
length. -/
theorem scsiRead_first_transfer (d : DPF) (cmd : List Nat) (blockLen : Int) (w : World) :
    ∃ rest, (scsiRead d cmd blockLen w).2.trace =
      w.trace ++ Transfer.write (scsiCmdPrepare d cmd blockLen false w).1 :: rest := by
  by_cases h : blockLen < 0 ∨ maxAlloc < blockLen
  · exact ⟨[], (scsiRead_fault d cmd blockLen w h).1⟩
  · have htr := (scsiRead_trace d cmd blockLen w (by omega) (by omega)).1
    simp only [readPlan, issuedOf_cons] at htr
    exact ⟨_, htr⟩

/-- When no write reports an error, `scsiWrite` returns what the status check
returns: no error if and only if the status read reports no error, delivers at
least 4 bytes and starts with "USBS". -/
theorem scsiWrite_status (d : DPF) (cmd : List Nat) (data : Option (List Nat)) (w : World)
    (n : Nat)
    (hw : d.epOut.Write w.trace (scsiCmdPrepare d cmd (sliceLen data) true w).1 = (n, none))
    (hd : ∀ bytes, data = some bytes → (d.epOut.Write
      (w.trace ++ [Transfer.write (scsiCmdPrepare d cmd (sliceLen data) true w).1]) bytes).2
        = none) :
    ((scsiWrite d cmd data w).1 = none ↔
      (d.epIn.Read (w.trace ++ (writePlan (scsiCmdPrepare d cmd (sliceLen data) true w).1
          data).dropLast) 13).2 = none ∧
        4 ≤ (d.epIn.Read (w.trace ++ (writePlan (scsiCmdPrepare d cmd (sliceLen data) true w).1
          data).dropLast) 13).1.length ∧
        (d.epIn.Read (w.trace ++ (writePlan (scsiCmdPrepare d cmd (sliceLen data) true w).1
          data).dropLast) 13).1.take 4 = USBS) := by
  have htr := scsiCmdPrepare_trace d cmd (sliceLen data) true w
  unfold scsiWrite
  rcases hp : scsiCmdPrepare d cmd (sliceLen data) true w with ⟨frame, w1⟩
  rw [hp] at htr hw hd
  simp only at htr hw hd
  simp only [epWrite, htr, hw]
  cases data with
  | none =>
    have hiff := scsiGetAck_none_iff d { w1 with trace := w.trace ++ [Transfer.write frame] }
    simpa [writePlan] using hiff
  | some bytes =>
    have h2 := hd bytes rfl
    rcases hw2 : d.epOut.Write (w.trace ++ [Transfer.write frame]) bytes with ⟨m, err2⟩
    rw [hw2] at h2
    simp only at h2
    subst h2
    have hiff := scsiGetAck_none_iff d
      { w1 with trace := w.trace ++ [Transfer.write frame] ++ [Transfer.write bytes] }
    simpa [writePlan, hw2] using hiff

/-! ## Properties of the specification -/

/-- C1: for every command block of at most 16 bytes, every length with
`0 ≤ blockLen < 2^32` and every direction, `scsiCmdPrepare` returns the bytes
55 53 42 43, DE AD BE EF, the four bytes of `blockLen` in little-endian order
(which decode to `blockLen`), the flag byte (0x00 when `out`, 0x80 otherwise),
one 0x00 byte, the byte `len(cmd)`, then `cmd` followed by `16 - len(cmd)` zero
bytes. -/
theorem scsiCmdPrepare_frame_layout (d : DPF) (cmd : List Nat) (blockLen : Int) (out : Bool)
    (w : World) (hcmd : cmd.length ≤ 16) (h0 : 0 ≤ blockLen) (h1 : blockLen < 2 ^ 32) :
    (scsiCmdPrepare d cmd blockLen out w).1 =
        [0x55, 0x53, 0x42, 0x43, 0xDE, 0xAD, 0xBE, 0xEF] ++ le32 blockLen.toNat ++
          [if out then 0x00 else 0x80, 0x00, cmd.length] ++ cmd ++
          List.replicate (16 - cmd.length) 0 ∧
      (leDecode (le32 blockLen.toNat) : Int) = blockLen := by
  refine ⟨scsiCmdPrepare_bytes d cmd blockLen out w hcmd h0, ?_⟩
  rw [leDecode_le32 _ (by omega)]
  omega

/-- Witness of C1: a 3-byte command block, a read of 0x01020304 bytes. -/
theorem scsiCmdPrepare_frame_layout_witness :
    (scsiCmdPrepare (handle okOut (scriptedIn [])) [0xcd, 1, 2] 0x01020304 false World.start).1 =
      [0x55, 0x53, 0x42, 0x43, 0xDE, 0xAD, 0xBE, 0xEF, 4, 3, 2, 1, 0x80, 0, 3,
        0xcd, 1, 2, 0, 0, 0, 0, 0, 0, 0, 0, 0, 0, 0, 0, 0] := by
  have h := (scsiCmdPrepare_frame_layout (handle okOut (scriptedIn [])) [0xcd, 1, 2] 0x01020304
    false World.start (by decide) (by decide) (by decide)).1
  rw [h]
  decide

/-- C2: `scsiGetAck` issues one IN read of 13 bytes; it returns no error if and
only if the read reports no transport error, at least 4 bytes were transferred
and the first 4 bytes are 55 53 42 53; whenever the first 4 bytes differ from
that constant it returns an error, whatever the other bytes are. -/
theorem scsiGetAck_success_iff (d : DPF) (w : World) :
    (scsiGetAck d w).2.trace = w.trace ++ [Transfer.read 13] ∧
    ((scsiGetAck d w).1 = none ↔
      (d.epIn.Read w.trace 13).2 = none ∧ 4 ≤ (d.epIn.Read w.trace 13).1.length ∧
        (d.epIn.Read w.trace 13).1.take 4 = [0x55, 0x53, 0x42, 0x53]) ∧
    ((d.epIn.Read w.trace 13).1.take 4 ≠ [0x55, 0x53, 0x42, 0x53] →
      ∃ e, (scsiGetAck d w).1 = some e) := by
  refine ⟨scsiGetAck_trace d w, scsiGetAck_none_iff d w, fun h => ?_⟩
  cases hres : (scsiGetAck d w).1 with
  | some e => exact ⟨e, rfl⟩
  | none => exact absurd ((scsiGetAck_none_iff d w).1 hres).2.2 h

/-- Witness of C2: a 13-byte status that starts with "USBC" is an error, a
status that starts with "USBS" is accepted. -/
theorem scsiGetAck_success_iff_witness :
    (∃ e, (scsiGetAck (handle okOut (scriptedIn
        [([0x55, 0x53, 0x42, 0x43, 0, 0, 0, 0, 0, 0, 0, 0, 0], none)])) World.start).1 = some e) ∧
      (scsiGetAck (handle okOut (scriptedIn [(goodStatus, none)])) World.start).1 = none :=
  ⟨(scsiGetAck_success_iff _ World.start).2.2 (by decide),
    (scsiGetAck_success_iff _ World.start).2.1.2 (by decide)⟩

/-- C3, as amended: the bulk transfers issued by `scsiWrite` are a prefix of
[OUT write of the 31-byte frame, OUT write of `data` (only when `data` is not
`nil`), IN read of the 13-byte status], and those issued by `scsiRead` a prefix
of [OUT write of the 31-byte frame, IN read of up to `blockLen` bytes, IN read
of the 13-byte status]. For `scsiWrite`, and for `scsiRead` when
`0 ≤ blockLen ≤ maxAlloc` (a length that `make` accepts), the prefix ends at
the first transfer that reports a transport error (the call then returns an
error) and is the whole sequence when none does. For any other `blockLen`,
`scsiRead` issues the write of the frame only and, when that write reports no
error, stops with a run-time fault instead of returning. -/
theorem scsi_transfers_ordered (d : DPF) (cmd : List Nat) (data : Option (List Nat))
    (blockLen : Int) (w : World) :
    (∃ frame plan, frame = (scsiCmdPrepare d cmd (sliceLen data) true w).1 ∧
        frame.length = 31 ∧ plan = writePlan frame data ∧
        (scsiWrite d cmd data w).2.trace = w.trace ++ issuedOf d w.trace plan ∧
        issuedOf d w.trace plan <+: plan ∧
        (planFails d w.trace plan = true → ∃ e, (scsiWrite d cmd data w).1 = some e) ∧
        (planFails d w.trace plan = false →
          (scsiWrite d cmd data w).2.trace = w.trace ++ plan)) ∧
    (∃ frame plan issued, frame = (scsiCmdPrepare d cmd blockLen false w).1 ∧
        frame.length = 31 ∧ plan = readPlan frame blockLen.toNat ∧
        (scsiRead d cmd blockLen w).2.trace = w.trace ++ issued ∧
        issued <+: plan ∧
        (0 ≤ blockLen → blockLen ≤ maxAlloc →
          issued = issuedOf d w.trace plan ∧
          (planFails d w.trace plan = true →
            ∃ bytes e, (scsiRead d cmd blockLen w).1 = some (bytes, some e)) ∧
          (planFails d w.trace plan = false → issued = plan)) ∧
        (blockLen < 0 ∨ maxAlloc < blockLen →
          issued = [Transfer.write frame] ∧
          ((d.epOut.Write w.trace frame).2 = none → (scsiRead d cmd blockLen w).1 = none))) := by
  refine ⟨⟨_, _, rfl, scsiCmdPrepare_length _ _ _ _ _, rfl, (scsiWrite_trace d cmd data w).1,
      issuedOf_prefix _ _ _, (scsiWrite_trace d cmd data w).2, fun hf => ?_⟩, ?_⟩
  · rw [(scsiWrite_trace d cmd data w).1, issuedOf_of_not_fails _ _ _ hf]
  · by_cases h : blockLen < 0 ∨ maxAlloc < blockLen
    · refine ⟨_, _, [Transfer.write (scsiCmdPrepare d cmd blockLen false w).1], rfl,
        scsiCmdPrepare_length _ _ _ _ _, rfl, (scsiRead_fault d cmd blockLen w h).1,
        ⟨_, rfl⟩, fun h0 hmax => ?_,
        fun _ => ⟨rfl, (scsiRead_fault d cmd blockLen w h).2⟩⟩
      omega
    · have h0 : 0 ≤ blockLen := by omega
      have hmax : blockLen ≤ maxAlloc := by omega
      refine ⟨_, _, issuedOf d w.trace
          (readPlan (scsiCmdPrepare d cmd blockLen false w).1 blockLen.toNat), rfl,
        scsiCmdPrepare_length _ _ _ _ _, rfl, (scsiRead_trace d cmd blockLen w h0 hmax).1,
        issuedOf_prefix _ _ _,
        fun _ _ => ⟨rfl, (scsiRead_trace d cmd blockLen w h0 hmax).2,
          fun hf => issuedOf_of_not_fails _ _ _ hf⟩,
        fun hbad => absurd hbad h⟩

/-- Witness of C3, as amended: a read command whose data stage reports a
transport error issues the frame and the data read, and no status read. -/
theorem scsi_transfers_ordered_witness :
    (scsiRead (handle okOut (scriptedIn [([], none), ([], some (Error.usb 1))]))
        [0xcd, 0, 0, 0, 0, 2, 0, 0, 0, 0, 0, 0, 0, 0, 0, 0] 5 World.start).2.trace =
      [Transfer.write dimensionsFrame, Transfer.read 5] := by
  obtain ⟨frame, plan, issued, hframe, _, hplan, htrace, _, hin, _⟩ :=
    (scsi_transfers_ordered (handle okOut (scriptedIn [([], none), ([], some (Error.usb 1))]))
      [0xcd, 0, 0, 0, 0, 2, 0, 0, 0, 0, 0, 0, 0, 0, 0, 0] none 5 World.start).2
  rw [htrace, (hin (by decide) (by decide)).1, hplan, hframe]
  rfl

/-- Counterexample to C3: with `blockLen = -1` and endpoints that report no
error, `scsiRead` issues the write of the frame only, not the whole sequence,
and stops with a fault instead of returning. -/
theorem scsiRead_negative_length_cut :
    planFails (handle okOut (scriptedIn []))
        [] (readPlan [0x55, 0x53, 0x42, 0x43, 0xde, 0xad, 0xbe, 0xef, 0xff, 0xff, 0xff, 0xff,
          0x80, 0x00, 0x10, 0xcd, 0, 0, 0, 0, 2, 0, 0, 0, 0, 0, 0, 0, 0, 0, 0] 0) = false ∧
      scsiRead (handle okOut (scriptedIn []))
        [0xcd, 0, 0, 0, 0, 2, 0, 0, 0, 0, 0, 0, 0, 0, 0, 0] (-1) World.start =
      (none,
        { trace := [
            Transfer.write [0x55, 0x53, 0x42, 0x43, 0xde, 0xad, 0xbe, 0xef, 0xff, 0xff, 0xff,
              0xff, 0x80, 0x00, 0x10, 0xcd, 0, 0, 0, 0, 2, 0, 0, 0, 0, 0, 0, 0, 0, 0, 0]],
          log := [] }) := by
  constructor
  · rfl
  · rfl

/-- C4: for every integer level `L`, `Brightness(L)` issues a write command
with no data stage whose command block is CD 00 00 00 00 06 01 01 00 c 00 00 00
00 00 00 with `c = clamp(L, 0, 7)`; so `Brightness(L)` does what
`Brightness(clamp(L, 0, 7))` does, and `Brightness(9)` sends the level bytes
07 00. -/
theorem Brightness_cdb (dpf : DPF) (lvl : Int) (w : World) :
    Brightness dpf lvl w =
        scsiWrite dpf [0xCD, 0, 0, 0, 0, 6, 0x01, 1, 0, (clamp lvl 0 7).toNat, 0, 0, 0, 0, 0, 0]
          none w ∧
      Brightness dpf lvl w = Brightness dpf (clamp lvl 0 7) w ∧
      Brightness dpf 9 w =
        scsiWrite dpf [0xCD, 0, 0, 0, 0, 6, 0x01, 1, 0, 0x07, 0x00, 0, 0, 0, 0, 0] none w := by
  have key : ∀ l : Int, Brightness dpf l w =
      scsiWrite dpf [0xCD, 0, 0, 0, 0, 6, 0x01, 1, 0, (clamp l 0 7).toNat, 0, 0, 0, 0, 0, 0]
        none w := by
    intro l
    have hc : (if (if l < 0 then 0 else l) > 7 then 7 else (if l < 0 then 0 else l))
        = clamp l 0 7 := by
      unfold clamp
      split_ifs <;> omega
    have h0 : 0 ≤ clamp l 0 7 := by unfold clamp; omega
    have h7 : clamp l 0 7 ≤ 7 := by unfold clamp; omega
    simp only [Brightness, hc, usbCmdSetProperty]
    rw [toByte_small _ h0 (by omega), toByte_shiftRight8 _ h0]
    have : (clamp l 0 7).toNat / 256 % 256 = 0 := by omega
    rw [this]
  refine ⟨key lvl, ?_, ?_⟩
  · rw [key lvl, key (clamp lvl 0 7)]
    have : clamp (clamp lvl 0 7) 0 7 = clamp lvl 0 7 := by unfold clamp; omega
    rw [this]
  · rw [key 9]
    rfl

/-- C5: for every image whose rectangle satisfies `0 ≤ Min.X < Max.X ≤ 65536`
and `0 ≤ Min.Y < Max.Y ≤ 65536`, `Blit` issues a write command whose data stage
is the pixel buffer of the image and whose command block is CD 00 00 00 00 06
12, then `Min.X`, `Min.Y`, `Max.X - 1`, `Max.Y - 1` as little-endian 16-bit
fields, then 00; decoding the four fields gives back
`(Min.X, Min.Y, Max.X - 1, Max.Y - 1)`. -/
theorem Blit_cdb (dpf : DPF) (img : ImageRGB565) (w : World)
    (hx0 : 0 ≤ img.Rect.Min.X) (hx : img.Rect.Min.X < img.Rect.Max.X)
    (hx1 : img.Rect.Max.X ≤ 65536)
    (hy0 : 0 ≤ img.Rect.Min.Y) (hy : img.Rect.Min.Y < img.Rect.Max.Y)
    (hy1 : img.Rect.Max.Y ≤ 65536) :
    Blit dpf img w =
        scsiWrite dpf
          ([0xCD, 0, 0, 0, 0, 6, 0x12] ++ le16 img.Rect.Min.X.toNat ++ le16 img.Rect.Min.Y.toNat ++
            le16 (img.Rect.Max.X - 1).toNat ++ le16 (img.Rect.Max.Y - 1).toNat ++ [0x00])
          img.PixRect w ∧
      (leDecode (le16 img.Rect.Min.X.toNat) : Int) = img.Rect.Min.X ∧
      (leDecode (le16 img.Rect.Min.Y.toNat) : Int) = img.Rect.Min.Y ∧
      (leDecode (le16 (img.Rect.Max.X - 1).toNat) : Int) = img.Rect.Max.X - 1 ∧
      (leDecode (le16 (img.Rect.Max.Y - 1).toNat) : Int) = img.Rect.Max.Y - 1 := by
  have hwx : wrapInt (img.Rect.Max.X - 1) = img.Rect.Max.X - 1 :=
    wrapInt_of_range _ (by omega) (by omega)
  have hwy : wrapInt (img.Rect.Max.Y - 1) = img.Rect.Max.Y - 1 :=
    wrapInt_of_range _ (by omega) (by omega)
  refine ⟨?_, ?_, ?_, ?_, ?_⟩
  · simp only [Blit, hwx, hwy, usbCmdBlit, le16]
    rw [toByte_of_nonneg _ hx0, toByte_of_nonneg _ hy0, toByte_shiftRight8 _ hx0,
      toByte_shiftRight8 _ hy0, toByte_of_nonneg (img.Rect.Max.X - 1) (by omega),
      toByte_of_nonneg (img.Rect.Max.Y - 1) (by omega),
      toByte_shiftRight8 (img.Rect.Max.X - 1) (by omega),
      toByte_shiftRight8 (img.Rect.Max.Y - 1) (by omega)]
    rfl
  all_goals
    simp only [le16, leDecode]
    omega

/-- Witness of C5: the full 320 x 240 screen and a 2-byte pixel buffer. -/
theorem Blit_cdb_witness :
    Blit (handle okOut (scriptedIn []))
        { Rect := { Min := { X := 0, Y := 0 }, Max := { X := 320, Y := 240 } },
          PixRect := some [0xF8, 0x00] } World.start =
      scsiWrite (handle okOut (scriptedIn []))
        [0xCD, 0, 0, 0, 0, 6, 0x12, 0x00, 0x00, 0x00, 0x00, 0x3F, 0x01, 0xEF, 0x00, 0x00]
        (some [0xF8, 0x00]) World.start :=
  (Blit_cdb (handle okOut (scriptedIn []))
    { Rect := { Min := { X := 0, Y := 0 }, Max := { X := 320, Y := 240 } },
      PixRect := some [0xF8, 0x00] } World.start
    (by decide) (by decide) (by decide) (by decide) (by decide) (by decide)).1

/-- C6: when the frame is written without error, the data stage delivers at
least 4 bytes `b0 b1 b2 b3 ...` without error and the status is valid,
`GetDimensions` returns width `b0 + 256 * b1`, height `b2 + 256 * b3` and no
error, whatever follows the fourth byte. -/
theorem GetDimensions_decodes (dpf : DPF) (w : World) (b0 b1 b2 b3 : Nat) (rest st : List Nat)
    (hb0 : b0 < 256) (hb2 : b2 < 256)
    (hw : (dpf.epOut.Write w.trace dimensionsFrame).2 = none)
    (hr : dpf.epIn.Read (w.trace ++ [Transfer.write dimensionsFrame]) 5 =
      (b0 :: b1 :: b2 :: b3 :: rest, none))
    (hs : dpf.epIn.Read (w.trace ++ [Transfer.write dimensionsFrame, Transfer.read 5]) 13 =
      (st, none))
    (hsig : st.take 4 = [0x55, 0x53, 0x42, 0x53]) :
    (GetDimensions dpf w).1 =
      some (((b0 + 256 * b1 : Nat) : Int), ((b2 + 256 * b3 : Nat) : Int), none) := by
  have hlen : 4 ≤ st.length := by
    have := congrArg List.length hsig
    simp at this
    omega
  obtain ⟨e, hres, hiff⟩ :=
    scsiRead_data dpf [0xcd, 0, 0, 0, 0, 2, 0, 0, 0, 0, 0, 0, 0, 0, 0, 0] 5 w
      (b0 :: b1 :: b2 :: b3 :: rest) (by decide) (by decide) hw hr
  simp only [GetDimensions_frame] at hiff
  have h5 : (5 : Int).toNat = 5 := rfl
  have he : e = none := hiff.2 (by
    rw [h5, hs]
    exact ⟨rfl, hlen, hsig⟩)
  subst he
  have hp : scsiRead dpf [0xcd, 0, 0, 0, 0, 2, 0, 0, 0, 0, 0, 0, 0, 0, 0, 0] 5 w =
      (some (some ((b0 :: b1 :: b2 :: b3 :: rest).take (5 : Int).toNat), none),
        (scsiRead dpf [0xcd, 0, 0, 0, 0, 2, 0, 0, 0, 0, 0, 0, 0, 0, 0, 0] 5 w).2) :=
    Prod.ext hres rfl
  simp only [GetDimensions]
  rw [hp]
  simp [h5, index, byte_or_shift, hb0, hb2]

/-- Witness of C6: the response 40 01 B0 00 FF gives (320, 176) and the
response 40 01 F0 00 00 gives (320, 240). -/
theorem GetDimensions_decodes_witness :
    (GetDimensions (handle okOut (scriptedIn
        [([], none), ([0x40, 0x01, 0xB0, 0x00, 0xFF], none), (goodStatus, none)]))
      World.start).1 = some (320, 176, none) ∧
    (GetDimensions (handle okOut (scriptedIn
        [([], none), ([0x40, 0x01, 0xF0, 0x00, 0x00], none), (goodStatus, none)]))
      World.start).1 = some (320, 240, none) :=
  ⟨GetDimensions_decodes _ World.start 0x40 0x01 0xB0 0x00 [0xFF] goodStatus
      (by decide) (by decide) rfl rfl rfl rfl,
    GetDimensions_decodes _ World.start 0x40 0x01 0xF0 0x00 [0x00] goodStatus
      (by decide) (by decide) rfl rfl rfl rfl⟩

/-- C7: when `scsiRead` issues the IN read of the data stage and that transfer
delivers `resp`, at most `blockLen` bytes, without transport error, `scsiRead`
returns exactly the bytes `resp` (not padded to `blockLen`), with no error if
the status that follows is valid and, if the status read fails or is invalid,
with that error next to the same bytes. -/
theorem scsiRead_returns_transferred (d : DPF) (cmd : List Nat) (blockLen : Int) (w : World)
    (resp : List Nat)
    (hissued : Transfer.read blockLen.toNat ∈
      (scsiRead d cmd blockLen w).2.trace.drop w.trace.length)
    (hlen : (resp.length : Int) ≤ blockLen)
    (hr : d.epIn.Read (w.trace ++ [Transfer.write (scsiCmdPrepare d cmd blockLen false w).1])
      blockLen.toNat = (resp, none)) :
    ∃ e, (scsiRead d cmd blockLen w).1 = some (some resp, e) ∧
      (e = none ↔
        (d.epIn.Read (w.trace ++ [Transfer.write (scsiCmdPrepare d cmd blockLen false w).1,
            Transfer.read blockLen.toNat]) 13).2 = none ∧
          4 ≤ (d.epIn.Read (w.trace ++ [Transfer.write (scsiCmdPrepare d cmd blockLen false w).1,
            Transfer.read blockLen.toNat]) 13).1.length ∧
          (d.epIn.Read (w.trace ++ [Transfer.write (scsiCmdPrepare d cmd blockLen false w).1,
            Transfer.read blockLen.toNat]) 13).1.take 4 = [0x55, 0x53, 0x42, 0x53]) := by
  obtain ⟨hw, h0, hmax⟩ := scsiRead_issues_read d cmd blockLen w _ hissued
  obtain ⟨e, hres, hiff⟩ := scsiRead_data d cmd blockLen w resp h0 hmax hw hr
  have ht : resp.take blockLen.toNat = resp := List.take_of_length_le (by omega)
  rw [ht] at hres
  exact ⟨e, hres, hiff⟩

/-- Witness of C7: 3 of 5 bytes are delivered and the status is 2 bytes long;
the 3 bytes are returned with an error. -/
theorem scsiRead_returns_transferred_witness :
    ∃ e, (scsiRead (handle okOut (scriptedIn
          [([], none), ([0x40, 0x01, 0xB0], none), ([0x55, 0x53], none)]))
        [0xcd, 0, 0, 0, 0, 2, 0, 0, 0, 0, 0, 0, 0, 0, 0, 0] 5 World.start).1 =
      some (some [0x40, 0x01, 0xB0], e) ∧ e ≠ none := by
  obtain ⟨e, hres, hiff⟩ := scsiRead_returns_transferred (handle okOut (scriptedIn
      [([], none), ([0x40, 0x01, 0xB0], none), ([0x55, 0x53], none)]))
    [0xcd, 0, 0, 0, 0, 2, 0, 0, 0, 0, 0, 0, 0, 0, 0, 0] 5 World.start [0x40, 0x01, 0xB0]
    (by decide) (by decide) rfl
  refine ⟨e, hres, fun he => ?_⟩
  have := (hiff.1 he).2.1
  revert this
  decide

/-- C8, as amended: for every command block of at most 16 bytes and every data
buffer shorter than `2^32` bytes, the frame that `scsiWrite` writes first has
byte 14 equal to `len(cmd)`, flag byte 0x00 and a length field (bytes 8 to 11,
little-endian) equal to `len(data)`: 0 when `data` is `nil`, the byte count of
the data stage that follows otherwise; the frame that `scsiRead` writes first
has byte 14 equal to `len(cmd)`, flag byte 0x80 and a length field equal to
`blockLen` modulo `2^32`, which is `blockLen` when `0 ≤ blockLen < 2^32`. -/
theorem frame_fields (d : DPF) (cmd : List Nat) (data : Option (List Nat)) (blockLen : Int)
    (w : World) (hcmd : cmd.length ≤ 16) (hdata : sliceLen data < 2 ^ 32) :
    (∃ frame rest,
        (scsiWrite d cmd data w).2.trace = w.trace ++ Transfer.write frame :: rest ∧
        frame.length = 31 ∧ frame[14]? = some cmd.length ∧ frame[12]? = some 0x00 ∧
        leDecode ((frame.drop 8).take 4) = sliceLen data ∧
        (data = none → leDecode ((frame.drop 8).take 4) = 0) ∧
        (∀ bytes, data = some bytes → (d.epOut.Write w.trace frame).2 = none →
          ∃ rest', rest = Transfer.write bytes :: rest' ∧
            leDecode ((frame.drop 8).take 4) = bytes.length)) ∧
    (∃ frame rest,
        (scsiRead d cmd blockLen w).2.trace = w.trace ++ Transfer.write frame :: rest ∧
        frame.length = 31 ∧ frame[14]? = some cmd.length ∧ frame[12]? = some 0x80 ∧
        (leDecode ((frame.drop 8).take 4) : Int) = blockLen % 2 ^ 32 ∧
        (0 ≤ blockLen → blockLen < 2 ^ 32 →
          (leDecode ((frame.drop 8).take 4) : Int) = blockLen)) := by
  have hmod : cmd.length % 256 = cmd.length := by omega
  constructor
  · have hfr := scsiCmdPrepare_bytes d cmd (sliceLen data) true w hcmd (by omega)
    have htr := (scsiWrite_trace d cmd data w).1
    have hdec : leDecode (((scsiCmdPrepare d cmd (sliceLen data) true w).1.drop 8).take 4)
        = sliceLen data := by
      rw [hfr]
      simp only [le32, leDecode, Int.toNat_ofNat, List.cons_append, List.nil_append,
        List.drop_succ_cons, List.drop_zero, List.take_succ_cons, List.take_zero]
      omega
    simp only [writePlan, List.append_assoc, List.singleton_append, List.cons_append,
      issuedOf_cons] at htr
    refine ⟨(scsiCmdPrepare d cmd (sliceLen data) true w).1, _, htr,
      scsiCmdPrepare_length _ _ _ _ _, ?_, ?_, hdec, ?_, ?_⟩
    · rw [hfr]; simp [le32]
    · rw [hfr]; simp [le32]
    · intro hnone
      rw [hdec, hnone]
      rfl
    · intro bytes hsome hok
      subst hsome
      have hnf : transferFails d w.trace
          (Transfer.write (scsiCmdPrepare d cmd (sliceLen (some bytes)) true w).1) = false := by
        simp [transferFails, hok]
      simp only [hnf, Bool.false_eq_true, if_false, List.nil_append, List.cons_append,
        issuedOf_cons]
      exact ⟨_, rfl, hdec⟩
  · obtain ⟨rest, htr⟩ := scsiRead_first_transfer d cmd blockLen w
    obtain ⟨hfield, h12, h14⟩ := scsiCmdPrepare_fields d cmd blockLen false w
    have hfield' : (leDecode (((scsiCmdPrepare d cmd blockLen false w).1.drop 8).take 4) : Int)
        = blockLen % 2 ^ 32 := by
      rw [hfield]
      omega
    refine ⟨(scsiCmdPrepare d cmd blockLen false w).1, rest, htr,
      scsiCmdPrepare_length _ _ _ _ _, ?_, ?_, hfield', fun h0 h1 => ?_⟩
    · rw [h14, hmod]
    · simpa using h12
    · rw [hfield']
      omega

/-- Witness of C8, as amended: a 7-byte command block and a 3-byte data
stage. -/
theorem frame_fields_witness :
    ∃ frame rest,
      (scsiWrite (handle okOut (scriptedIn [])) [0xcd, 0, 0, 0, 0, 6, 0x12] (some [1, 2, 3])
        World.start).2.trace = Transfer.write frame :: Transfer.write [1, 2, 3] :: rest ∧
      frame[14]? = some 7 ∧ frame[12]? = some 0x00 ∧ leDecode ((frame.drop 8).take 4) = 3 := by
  obtain ⟨frame, rest, htr, _, h14, h12, hdec, _, hdata⟩ :=
    (frame_fields (handle okOut (scriptedIn [])) [0xcd, 0, 0, 0, 0, 6, 0x12] (some [1, 2, 3]) 5
      World.start (by decide) (by decide)).1
  obtain ⟨rest', hrest, _⟩ := hdata [1, 2, 3] rfl rfl
  exact ⟨frame, rest', by rw [htr, hrest]; rfl, h14, h12, hdec⟩

/-- Counterexample to C8: for `blockLen = 2^32 + 1` the length field of the
frame that `scsiRead` writes decodes to 1, not to `blockLen`. -/
theorem scsiRead_length_field_wraps :
    ∃ frame rest,
      (scsiRead (handle okOut (scriptedIn []))
        [0xcd, 0, 0, 0, 0, 2, 0, 0, 0, 0, 0, 0, 0, 0, 0, 0] (2 ^ 32 + 1) World.start).2.trace =
        World.start.trace ++ Transfer.write frame :: rest ∧
      leDecode ((frame.drop 8).take 4) = 1 ∧
      ((leDecode ((frame.drop 8).take 4) : Nat) : Int) ≠ 2 ^ 32 + 1 := by
  obtain ⟨rest, htr⟩ := scsiRead_first_transfer (handle okOut (scriptedIn []))
    [0xcd, 0, 0, 0, 0, 2, 0, 0, 0, 0, 0, 0, 0, 0, 0, 0] (2 ^ 32 + 1) World.start
  have hfield := (scsiCmdPrepare_fields (handle okOut (scriptedIn []))
    [0xcd, 0, 0, 0, 0, 2, 0, 0, 0, 0, 0, 0, 0, 0, 0, 0] (2 ^ 32 + 1) false World.start).1
  have h1 : ((2 ^ 32 + 1 : Int) % 2 ^ 32).toNat = 1 := by decide
  rw [h1] at hfield
  exact ⟨_, rest, htr, hfield, by rw [hfield]; decide⟩

/-- C9: for every input, the command block built by `Brightness` and by `Blit`
is 16 bytes long with byte 0 equal to 0xCD, and byte 6 is 0x01 for `Brightness`
and 0x12 for `Blit`; the command block of `GetDimensions` is 0xCD, four zero
bytes, 0x02 and ten zero bytes, and it is sent by `scsiRead` with a length of 5
bytes. -/
theorem cdb_shapes :
    (∀ lvl : Int, ∃ cdb : List Nat, cdb.length = 16 ∧ cdb[0]? = some 0xCD ∧
      cdb[6]? = some 0x01 ∧
      ∀ (dpf : DPF) (w : World), Brightness dpf lvl w = scsiWrite dpf cdb none w) ∧
    (∀ img : ImageRGB565, ∃ cdb : List Nat, cdb.length = 16 ∧ cdb[0]? = some 0xCD ∧
      cdb[6]? = some 0x12 ∧
      ∀ (dpf : DPF) (w : World), Blit dpf img w = scsiWrite dpf cdb img.PixRect w) ∧
    (∃ cdb : List Nat, cdb = [0xCD, 0, 0, 0, 0, 0x02, 0, 0, 0, 0, 0, 0, 0, 0, 0, 0] ∧
      cdb.length = 16 ∧
      ∀ (dpf : DPF) (w : World), (GetDimensions dpf w).2 = (scsiRead dpf cdb 5 w).2) := by
  refine ⟨fun lvl => ⟨_, ?_, ?_, ?_, fun dpf w => rfl⟩,
    fun img => ⟨_, ?_, ?_, ?_, fun dpf w => rfl⟩, ⟨_, rfl, rfl, fun dpf w => ?_⟩⟩
  · rfl
  · rfl
  · rfl
  · rfl
  · rfl
  · rfl
  · simp only [GetDimensions]
    split <;> simp_all

/-- C10, as amended: for every command block longer than 16 bytes
`scsiCmdPrepare` reports no error; it returns a frame of 31 bytes whose last 16
bytes are the first 16 bytes of the command block. -/
theorem scsiCmdPrepare_long_cdb (d : DPF) (cmd : List Nat) (blockLen : Int) (out : Bool)
    (w : World) (h : 16 < cmd.length) :
    (scsiCmdPrepare d cmd blockLen out w).1.length = 31 ∧
      (scsiCmdPrepare d cmd blockLen out w).1.drop 15 = cmd.take 16 := by
  refine ⟨scsiCmdPrepare_length d cmd blockLen out w, ?_⟩
  have hmin : min 16 cmd.length = 16 := by omega
  simp [scsiCmdPrepare, copy, hmin]

/-- Witness of C10, as amended: a command block of 17 bytes. -/
theorem scsiCmdPrepare_long_cdb_witness :
    (scsiCmdPrepare (handle okOut (scriptedIn []))
        [1, 2, 3, 4, 5, 6, 7, 8, 9, 10, 11, 12, 13, 14, 15, 16, 17] 0 true World.start).1.drop 15 =
      [1, 2, 3, 4, 5, 6, 7, 8, 9, 10, 11, 12, 13, 14, 15, 16] :=
  (scsiCmdPrepare_long_cdb (handle okOut (scriptedIn []))
    [1, 2, 3, 4, 5, 6, 7, 8, 9, 10, 11, 12, 13, 14, 15, 16, 17] 0 true World.start
    (by decide)).2

/-- Counterexample to C10: for a command block of 17 bytes `scsiCmdPrepare`
returns a frame; its signature has no error result. -/
theorem scsiCmdPrepare_long_cdb_returns_frame :
    16 < [1, 2, 3, 4, 5, 6, 7, 8, 9, 10, 11, 12, 13, 14, 15, 16, 17].length ∧
      (scsiCmdPrepare (handle okOut (scriptedIn []))
        [1, 2, 3, 4, 5, 6, 7, 8, 9, 10, 11, 12, 13, 14, 15, 16, 17] 0 true World.start).1 =
      [0x55, 0x53, 0x42, 0x43, 0xde, 0xad, 0xbe, 0xef, 0, 0, 0, 0, 0x00, 0x00, 17,
        1, 2, 3, 4, 5, 6, 7, 8, 9, 10, 11, 12, 13, 14, 15, 16] := by
  decide

/-- C11, what the code does: when the frame is written without error, the
data stage delivers fewer than 4 bytes without error and the status is valid,
`scsiRead` returns those bytes with no error and `GetDimensions` stops with an
index-out-of-range fault on `data[i]`; it returns neither an error nor
dimensions. -/
theorem GetDimensions_short_data_faults (dpf : DPF) (w : World) (resp st : List Nat)
    (hlen : resp.length < 4)
    (hw : (dpf.epOut.Write w.trace dimensionsFrame).2 = none)
    (hr : dpf.epIn.Read (w.trace ++ [Transfer.write dimensionsFrame]) 5 = (resp, none))
    (hs : dpf.epIn.Read (w.trace ++ [Transfer.write dimensionsFrame, Transfer.read 5]) 13 =
      (st, none))
    (hsig : st.take 4 = [0x55, 0x53, 0x42, 0x53]) :
    (GetDimensions dpf w).1 = none := by
  have hst : 4 ≤ st.length := by
    have := congrArg List.length hsig
    simp at this
    omega
  obtain ⟨e, hres, hiff⟩ :=
    scsiRead_data dpf [0xcd, 0, 0, 0, 0, 2, 0, 0, 0, 0, 0, 0, 0, 0, 0, 0] 5 w resp
      (by decide) (by decide) hw hr
  simp only [GetDimensions_frame] at hiff
  have h5 : (5 : Int).toNat = 5 := rfl
  have he : e = none := hiff.2 (by
    rw [h5, hs]
    exact ⟨rfl, hst, hsig⟩)
  subst he
  have hp : scsiRead dpf [0xcd, 0, 0, 0, 0, 2, 0, 0, 0, 0, 0, 0, 0, 0, 0, 0] 5 w =
      (some (some (resp.take (5 : Int).toNat), none),
        (scsiRead dpf [0xcd, 0, 0, 0, 0, 2, 0, 0, 0, 0, 0, 0, 0, 0, 0, 0] 5 w).2) :=
    Prod.ext hres rfl
  simp only [GetDimensions]
  rw [hp]
  match resp, hlen with
  | [], _ => simp [h5, index]
  | [_], _ => simp [h5, index]
  | [_, _], _ => simp [h5, index]
  | [_, _, _], _ => simp [h5, index]
  | _ :: _ :: _ :: _ :: _, h => simp only [List.length_cons] at h; omega

/-- Witness of C11: a data stage of the 3 bytes 40 01 B0 and a valid status. -/
theorem GetDimensions_short_data_faults_witness :
    (GetDimensions (handle okOut (scriptedIn
        [([], none), ([0x40, 0x01, 0xB0], none), (goodStatus, none)]))
      World.start).1 = none :=
  GetDimensions_short_data_faults _ World.start [0x40, 0x01, 0xB0] goodStatus
    (by decide) rfl rfl rfl rfl

/-- C12, as amended: for every image whose rectangle has `Max.X ≤ Min.X` or
`Max.Y ≤ Min.Y`, `Blit` does not reject the rectangle: its first transfer is the
write of the 31-byte frame, which starts with 55 53 42 43, to the OUT
endpoint. -/
theorem Blit_empty_rectangle_writes (dpf : DPF) (img : ImageRGB565) (w : World)
    (_h : img.Rect.Max.X ≤ img.Rect.Min.X ∨ img.Rect.Max.Y ≤ img.Rect.Min.Y) :
    ∃ frame rest, (Blit dpf img w).2.trace = w.trace ++ Transfer.write frame :: rest ∧
      frame.length = 31 ∧ frame.take 4 = [0x55, 0x53, 0x42, 0x43] := by
  have htr := (scsiWrite_trace dpf
    [0xcd, 0, 0, 0, 0, 6, usbCmdBlit,
      toByte img.Rect.Min.X, toByte (img.Rect.Min.X >>> (8 : Nat)),
      toByte img.Rect.Min.Y, toByte (img.Rect.Min.Y >>> (8 : Nat)),
      toByte (wrapInt (img.Rect.Max.X - 1)),
      toByte (wrapInt (img.Rect.Max.X - 1) >>> (8 : Nat)),
      toByte (wrapInt (img.Rect.Max.Y - 1)),
      toByte (wrapInt (img.Rect.Max.Y - 1) >>> (8 : Nat)),
      0] img.PixRect w).1
  simp only [writePlan, List.append_assoc, List.singleton_append, List.cons_append,
    issuedOf_cons] at htr
  exact ⟨_, _, htr, scsiCmdPrepare_length _ _ _ _ _, rfl⟩

/-- Witness of C12, as amended: the rectangle from (10, 10) to (5, 5). -/
theorem Blit_empty_rectangle_writes_witness :
    ∃ frame rest,
      (Blit (handle okOut (scriptedIn []))
        { Rect := { Min := { X := 10, Y := 10 }, Max := { X := 5, Y := 5 } },
          PixRect := some [0xF8, 0x00] } World.start).2.trace =
        World.start.trace ++ Transfer.write frame :: rest ∧
      frame.length = 31 ∧ frame.take 4 = [0x55, 0x53, 0x42, 0x43] :=
  Blit_empty_rectangle_writes (handle okOut (scriptedIn []))
    { Rect := { Min := { X := 10, Y := 10 }, Max := { X := 5, Y := 5 } },
      PixRect := some [0xF8, 0x00] } World.start (by decide)

/-- Counterexample to C12: for the rectangle from (10, 10) to (5, 5) `Blit`
returns no error and issues the frame, the pixel data and the status read. -/
theorem Blit_empty_rectangle_not_rejected :
    (Blit (handle okOut (scriptedIn [([], none), ([], none), (goodStatus, none)]))
        { Rect := { Min := { X := 10, Y := 10 }, Max := { X := 5, Y := 5 } },
          PixRect := some [0xF8, 0x00] } World.start) =
      (none,
        { trace := [
            Transfer.write [0x55, 0x53, 0x42, 0x43, 0xde, 0xad, 0xbe, 0xef, 2, 0, 0, 0, 0x00,
              0x00, 16, 0xcd, 0, 0, 0, 0, 6, 0x12, 0x0A, 0x00, 0x0A, 0x00, 0x04, 0x00, 0x04,
              0x00, 0],
            Transfer.write [0xF8, 0x00],
            Transfer.read 13],
          log := [] }) := by
  rfl

/-- C13, as amended: when the status read reports no transport error and
either fewer than 4 bytes were transferred or the first 4 bytes are not
55 53 42 53, `scsiGetAck` returns the same error in both cases, "Invalid ACK"
with the bytes transferred; the two cases differ only in those bytes. -/
theorem scsiGetAck_invalid_same_kind (d : DPF) (w : World) (resp : List Nat)
    (hr : d.epIn.Read w.trace 13 = (resp, none))
    (hbad : resp.length < 4 ∨ resp.take 4 ≠ [0x55, 0x53, 0x42, 0x53]) :
    (scsiGetAck d w).1 = some (Error.invalidAck (resp.take 13)) ∧
      ∀ e, (scsiGetAck d w).1 = some e → e.kind = ErrorKind.invalidAck := by
  have key : (scsiGetAck d w).1 = some (Error.invalidAck (resp.take 13)) := by
    simp only [scsiGetAck, epRead, List.length_replicate, hr, copy_replicate_take]
    by_cases hlen : 4 ≤ resp.length
    · have ht : (copy (List.replicate 13 0) resp).take 4 = resp.take 4 :=
        copy_take _ _ _ (by simp; omega)
      have hsig : resp.take 4 ≠ USBS := by
        rcases hbad with h | h
        · omega
        · exact h
      rw [ht]
      simp [hsig]
    · have : min resp.length 13 < 4 := by omega
      simp [this]
  refine ⟨key, fun e he => ?_⟩
  rw [key] at he
  cases he
  rfl

/-- Witness of C13, as amended: a status of 2 bytes and a status of 13 bytes
that starts with "USBC". -/
theorem scsiGetAck_invalid_same_kind_witness :
    (scsiGetAck (handle okOut (scriptedIn [([0x55, 0x53], none)])) World.start).1 =
        some (Error.invalidAck [0x55, 0x53]) ∧
      (scsiGetAck (handle okOut (scriptedIn
        [([0x55, 0x53, 0x42, 0x43, 0, 0, 0, 0, 0, 0, 0, 0, 0], none)])) World.start).1 =
        some (Error.invalidAck [0x55, 0x53, 0x42, 0x43, 0, 0, 0, 0, 0, 0, 0, 0, 0]) :=
  ⟨(scsiGetAck_invalid_same_kind (handle okOut (scriptedIn [([0x55, 0x53], none)])) World.start
      [0x55, 0x53] rfl (by decide)).1,
    (scsiGetAck_invalid_same_kind (handle okOut (scriptedIn
      [([0x55, 0x53, 0x42, 0x43, 0, 0, 0, 0, 0, 0, 0, 0, 0], none)])) World.start
      [0x55, 0x53, 0x42, 0x43, 0, 0, 0, 0, 0, 0, 0, 0, 0] rfl (by decide)).1⟩

/-- Counterexample to C13: the error for a status of 2 bytes and the error for
a status of 13 bytes that starts with "USBC" are of the same kind. -/
theorem scsiGetAck_short_and_bad_signature_same_kind :
    ∃ e1 e2,
      (scsiGetAck (handle okOut (scriptedIn [([0x55, 0x53], none)])) World.start).1 = some e1 ∧
      (scsiGetAck (handle okOut (scriptedIn
        [([0x55, 0x53, 0x42, 0x43, 0, 0, 0, 0, 0, 0, 0, 0, 0], none)])) World.start).1 = some e2 ∧
      e1.kind = e2.kind :=
  ⟨Error.invalidAck [0x55, 0x53],
    Error.invalidAck [0x55, 0x53, 0x42, 0x43, 0, 0, 0, 0, 0, 0, 0, 0, 0],
    by decide, by decide, rfl⟩

/-- C14, as amended: the byte count of an OUT write is not looked at. When the
write of the frame reports no transport error, whatever the number `n` of bytes
it transferred (fewer than requested or all of them), `scsiWrite` goes on with
the next stage: the data write when `data` is not `nil`, the status read
otherwise. When the data write that follows reports no transport error,
whatever the number `m` of bytes it transferred, the status read is issued and
`scsiWrite` returns what the status check returns, not a write error. -/
theorem scsiWrite_ignores_short_write (d : DPF) (cmd : List Nat) (data : Option (List Nat))
    (w : World) :
    (∀ n, d.epOut.Write w.trace (scsiCmdPrepare d cmd (sliceLen data) true w).1 = (n, none) →
      ∃ rest, (scsiWrite d cmd data w).2.trace =
        w.trace ++ Transfer.write (scsiCmdPrepare d cmd (sliceLen data) true w).1 ::
          (match data with
            | some bytes => Transfer.write bytes
            | none => Transfer.read 13) :: rest) ∧
    (∀ n bytes m, data = some bytes →
      d.epOut.Write w.trace (scsiCmdPrepare d cmd (sliceLen data) true w).1 = (n, none) →
      d.epOut.Write (w.trace ++ [Transfer.write (scsiCmdPrepare d cmd (sliceLen data) true w).1])
        bytes = (m, none) →
      (scsiWrite d cmd data w).2.trace =
          w.trace ++ [Transfer.write (scsiCmdPrepare d cmd (sliceLen data) true w).1,
            Transfer.write bytes, Transfer.read 13] ∧
        ((scsiWrite d cmd data w).1 = none ↔
          (d.epIn.Read (w.trace ++
              [Transfer.write (scsiCmdPrepare d cmd (sliceLen data) true w).1,
                Transfer.write bytes]) 13).2 = none ∧
            4 ≤ (d.epIn.Read (w.trace ++
              [Transfer.write (scsiCmdPrepare d cmd (sliceLen data) true w).1,
                Transfer.write bytes]) 13).1.length ∧
            (d.epIn.Read (w.trace ++
              [Transfer.write (scsiCmdPrepare d cmd (sliceLen data) true w).1,
                Transfer.write bytes]) 13).1.take 4 = [0x55, 0x53, 0x42, 0x53])) := by
  have htr := (scsiWrite_trace d cmd data w).1
  constructor
  · intro n hw
    have hnf : transferFails d w.trace
        (Transfer.write (scsiCmdPrepare d cmd (sliceLen data) true w).1) = false := by
      simp [transferFails, hw]
    simp only [writePlan, List.append_assoc, List.singleton_append, List.cons_append,
      issuedOf_cons, hnf, Bool.false_eq_true, if_false, List.nil_append] at htr
    cases data with
    | none =>
      simp only [List.nil_append, issuedOf_cons] at htr
      exact ⟨_, htr⟩
    | some bytes =>
      simp only [List.cons_append, List.nil_append, issuedOf_cons] at htr
      exact ⟨_, htr⟩
  · intro n bytes m hdata hw hw2
    subst hdata
    have hnf : transferFails d w.trace
        (Transfer.write (scsiCmdPrepare d cmd (sliceLen (some bytes)) true w).1) = false := by
      simp [transferFails, hw]
    have hnf2 : transferFails d
        (w.trace ++ [Transfer.write (scsiCmdPrepare d cmd (sliceLen (some bytes)) true w).1])
        (Transfer.write bytes) = false := by
      simp [transferFails, hw2]
    simp only [writePlan, List.append_assoc, List.singleton_append, List.cons_append,
      issuedOf_cons, hnf, hnf2, Bool.false_eq_true, if_false, List.nil_append, issuedOf,
      ite_self] at htr
    refine ⟨htr, ?_⟩
    have hst := scsiWrite_status d cmd (some bytes) w n hw (fun b hb => by
      cases hb
      rw [hw2])
    simpa [writePlan] using hst

/-- Witness of C14, as amended: an OUT endpoint that writes no byte and reports
no error. -/
theorem scsiWrite_ignores_short_write_witness :
    (scsiWrite (handle shortOut (scriptedIn [([], none), ([], none), (goodStatus, none)]))
        [0xcd, 0, 0, 0, 0, 6, 0x12] (some [1, 2, 3]) World.start).2.trace =
      World.start.trace ++
        [Transfer.write (scsiCmdPrepare
            (handle shortOut (scriptedIn [([], none), ([], none), (goodStatus, none)]))
            [0xcd, 0, 0, 0, 0, 6, 0x12] (sliceLen (some [1, 2, 3])) true World.start).1,
          Transfer.write [1, 2, 3], Transfer.read 13] :=
  ((scsiWrite_ignores_short_write
    (handle shortOut (scriptedIn [([], none), ([], none), (goodStatus, none)]))
    [0xcd, 0, 0, 0, 0, 6, 0x12] (some [1, 2, 3]) World.start).2
    0 [1, 2, 3] 0 rfl rfl rfl).1

/-- Counterexample to C14: with an OUT endpoint that writes no byte and reports
no error, `scsiWrite` issues the frame, the data and the status read, and
returns no error. -/
theorem scsiWrite_short_write_not_aborted :
    (scsiWrite (handle shortOut (scriptedIn [([], none), ([], none), (goodStatus, none)]))
        [0xcd, 0, 0, 0, 0, 6, 0x12] (some [1, 2, 3]) World.start) =
      (none,
        { trace := [
            Transfer.write [0x55, 0x53, 0x42, 0x43, 0xde, 0xad, 0xbe, 0xef, 3, 0, 0, 0, 0x00,
              0x00, 7, 0xcd, 0, 0, 0, 0, 6, 0x12, 0, 0, 0, 0, 0, 0, 0, 0, 0],
            Transfer.write [1, 2, 3],
            Transfer.read 13],
          log := [] }) := by
  rfl

/-- C15: for every command block, length and direction and any two handles
and worlds, the two frames returned by `scsiCmdPrepare` are equal, each has
length 31, and no transfer is issued. -/
theorem scsiCmdPrepare_handle_independent (d1 d2 : DPF) (w1 w2 : World) (cmd : List Nat)
    (blockLen : Int) (out : Bool) :
    (scsiCmdPrepare d1 cmd blockLen out w1).1 = (scsiCmdPrepare d2 cmd blockLen out w2).1 ∧
      (scsiCmdPrepare d1 cmd blockLen out w1).1.length = 31 ∧
      (scsiCmdPrepare d2 cmd blockLen out w2).1.length = 31 ∧
      (scsiCmdPrepare d1 cmd blockLen out w1).2.trace = w1.trace :=
  ⟨rfl, scsiCmdPrepare_length _ _ _ _ _, scsiCmdPrepare_length _ _ _ _ _,
    scsiCmdPrepare_trace _ _ _ _ _⟩

/-- C16: when a step of `OpenDpf` fails (device open error, device not found,
auto-detach, configuration, interface claim, OUT endpoint, IN endpoint), no
handle is returned, an error is returned, and the steps in the life of the
resources are: the resources acquired before the failing step, in the order
context, device, configuration, interface, and then the same resources released
once each in the reverse order. -/
theorem OpenDpf_failure_releases (usb : UsbLibrary)
    (hfail : usb.openErr ≠ none ∨ usb.openDev = false ∨ usb.autoDetachErr ≠ none ∨
      usb.configErr ≠ none ∨ usb.interfaceErr ≠ none ∨ usb.epOutErr ≠ none ∨
      usb.epInErr ≠ none) :
    (OpenDpf usb).1.1 = none ∧
    (∃ e, (OpenDpf usb).1.2 = some e) ∧
    ∃ acq : List Resource,
      acq <+: [Resource.ctx, Resource.dev, Resource.cfg, Resource.intf] ∧
      (OpenDpf usb).2 = acquiredThenReleased acq := by
  unfold OpenDpf
  cases h1 : usb.openErr with
  | some e1 => exact ⟨rfl, by simp, [Resource.ctx], by decide, by simp [acquiredThenReleased]⟩
  | none =>
    cases h2 : usb.openDev with
    | false =>
      exact ⟨rfl, by simp, [Resource.ctx], by decide, by simp [acquiredThenReleased]⟩
    | true =>
      cases h3 : usb.autoDetachErr with
      | some e3 =>
        exact ⟨rfl, by simp, [Resource.ctx, Resource.dev], by decide,
          by simp [acquiredThenReleased]⟩
      | none =>
        cases h4 : usb.configErr with
        | some e4 =>
          exact ⟨rfl, by simp, [Resource.ctx, Resource.dev], by decide,
            by simp [acquiredThenReleased]⟩
        | none =>
          cases h5 : usb.interfaceErr with
          | some e5 =>
            exact ⟨rfl, by simp, [Resource.ctx, Resource.dev, Resource.cfg], by decide,
              by simp [acquiredThenReleased]⟩
          | none =>
            cases h6 : usb.epOutErr with
            | some e6 =>
              exact ⟨rfl, by simp, [Resource.ctx, Resource.dev, Resource.cfg, Resource.intf],
                by decide, by simp [acquiredThenReleased]⟩
            | none =>
              cases h7 : usb.epInErr with
              | some e7 =>
                exact ⟨rfl, by simp,
                  [Resource.ctx, Resource.dev, Resource.cfg, Resource.intf],
                  by decide, by simp [acquiredThenReleased]⟩
              | none =>
                simp [h1, h2, h3, h4, h5, h6, h7] at hfail

/-- Witness of C16: the IN endpoint cannot be opened. -/
theorem OpenDpf_failure_releases_witness :
    (OpenDpf { okUsb okOut (scriptedIn []) with epInErr := some (Error.usb 5) }).1.1 = none ∧
    (∃ e, (OpenDpf { okUsb okOut (scriptedIn []) with epInErr := some (Error.usb 5) }).1.2 =
        some e) ∧
    ∃ acq : List Resource,
      acq <+: [Resource.ctx, Resource.dev, Resource.cfg, Resource.intf] ∧
      (OpenDpf { okUsb okOut (scriptedIn []) with epInErr := some (Error.usb 5) }).2 =
        acquiredThenReleased acq :=
  OpenDpf_failure_releases { okUsb okOut (scriptedIn []) with epInErr := some (Error.usb 5) }
    (by simp [okUsb])

/-- C17, what the code does: on a handle returned by a successful `OpenDpf`,
which acquired the context, the device, the configuration and the interface,
`Close` releases the interface, the device and the context, and never the
configuration. -/
theorem Close_leaves_configuration (usb : UsbLibrary) (d : DPF)
    (h : (OpenDpf usb).1.1 = some d) :
    (OpenDpf usb).2 = [ResEvent.acquire Resource.ctx, ResEvent.acquire Resource.dev,
        ResEvent.acquire Resource.cfg, ResEvent.acquire Resource.intf] ∧
      Close d = [ResEvent.release Resource.intf, ResEvent.release Resource.dev,
        ResEvent.release Resource.ctx] ∧
      ResEvent.release Resource.cfg ∉ Close d := by
  unfold OpenDpf at h ⊢
  cases h1 : usb.openErr with
  | some e1 => simp [h1] at h
  | none =>
    cases h2 : usb.openDev with
    | false => simp [h1, h2] at h
    | true =>
      cases h3 : usb.autoDetachErr with
      | some e3 => simp [h1, h2, h3] at h
      | none =>
        cases h4 : usb.configErr with
        | some e4 => simp [h1, h2, h3, h4] at h
        | none =>
          cases h5 : usb.interfaceErr with
          | some e5 => simp [h1, h2, h3, h4, h5] at h
          | none =>
            cases h6 : usb.epOutErr with
            | some e6 => simp [h1, h2, h3, h4, h5, h6] at h
            | none =>
              cases h7 : usb.epInErr with
              | some e7 => simp [h1, h2, h3, h4, h5, h6, h7] at h
              | none =>
                simp only [h1, h2, h3, h4, h5, h6, h7] at h
                simp only [Bool.true_eq_false, if_false, Option.some.injEq] at h
                subst h
                simp [Close]

/-- Witness of C17: every call of the library succeeds. -/
theorem Close_leaves_configuration_witness :
    (OpenDpf (okUsb okOut (scriptedIn []))).2 ++ Close (handle okOut (scriptedIn [])) =
      [ResEvent.acquire Resource.ctx, ResEvent.acquire Resource.dev,
        ResEvent.acquire Resource.cfg, ResEvent.acquire Resource.intf,
        ResEvent.release Resource.intf, ResEvent.release Resource.dev,
        ResEvent.release Resource.ctx] := by
  have h := Close_leaves_configuration (okUsb okOut (scriptedIn []))
    (handle okOut (scriptedIn [])) rfl
  rw [h.1, h.2.1]
  rfl

/-- C18, as amended: for every command block longer than 16 bytes
`scsiCmdPrepare` returns 31 bytes, the block of the frame holds the first 16
bytes of `cmd` and the length byte is `len(cmd) mod 256`; the length byte
differs from the number of bytes carried exactly when `len(cmd) mod 256` is not
16, which is so for every length below 272. -/
theorem scsiCmdPrepare_length_byte_wraps (d : DPF) (cmd : List Nat) (blockLen : Int)
    (out : Bool) (w : World) (h : 16 < cmd.length) :
    (scsiCmdPrepare d cmd blockLen out w).1.length = 31 ∧
      (scsiCmdPrepare d cmd blockLen out w).1.drop 15 = cmd.take 16 ∧
      (scsiCmdPrepare d cmd blockLen out w).1[14]? = some (cmd.length % 256) ∧
      (cmd.length % 256 ≠ (cmd.take 16).length ↔ cmd.length % 256 ≠ 16) ∧
      (cmd.length < 272 → cmd.length % 256 ≠ (cmd.take 16).length) := by
  have hlen : (cmd.take 16).length = 16 := by simp; omega
  refine ⟨scsiCmdPrepare_length d cmd blockLen out w,
    (scsiCmdPrepare_long d cmd blockLen out w h).1,
    (scsiCmdPrepare_long d cmd blockLen out w h).2, ?_, ?_⟩
  · rw [hlen]
  · intro h272
    rw [hlen]
    omega

/-- Witness of C18, as amended: a command block of 17 bytes. -/
theorem scsiCmdPrepare_length_byte_wraps_witness :
    (scsiCmdPrepare (handle okOut (scriptedIn []))
        [1, 2, 3, 4, 5, 6, 7, 8, 9, 10, 11, 12, 13, 14, 15, 16, 17] 0 true World.start).1[14]? =
      some (17 % 256) :=
  (scsiCmdPrepare_length_byte_wraps (handle okOut (scriptedIn []))
    [1, 2, 3, 4, 5, 6, 7, 8, 9, 10, 11, 12, 13, 14, 15, 16, 17] 0 true World.start
    (by decide)).2.2.1

/-- Counterexample to C18: for a command block of 272 bytes the length byte is
16, the number of bytes carried in the frame. -/
theorem scsiCmdPrepare_length_byte_16_at_272 :
    16 < (List.replicate 272 0xAA).length ∧
      (scsiCmdPrepare (handle okOut (scriptedIn [])) (List.replicate 272 0xAA) 0 true
        World.start).1[14]? = some 16 ∧
      ((scsiCmdPrepare (handle okOut (scriptedIn [])) (List.replicate 272 0xAA) 0 true
        World.start).1.drop 15).length = 16 := by
  have hl : (List.replicate 272 0xAA).length = 272 := List.length_replicate _ _
  have h16 : 16 < (List.replicate 272 0xAA).length := by rw [hl]; decide
  have h := scsiCmdPrepare_long (handle okOut (scriptedIn [])) (List.replicate 272 0xAA) 0 true
    World.start h16
  refine ⟨h16, ?_, ?_⟩
  · rw [h.2, hl]
  · rw [h.1, List.length_take, hl]
    decide

/-- C19: for every rectangle `Blit` issues the write command, with the four
coordinate fields equal to `Min.X`, `Min.Y`, `Max.X - 1`, `Max.Y - 1` reduced
modulo 2^16 in little-endian order; a rectangle with `Max.X = 0` has the field
bytes FF FF, and images with the same pixel buffer whose coordinates are equal
modulo 65536 are sent in the same way. -/
theorem Blit_never_rejects (dpf : DPF) (w : World) :
    (∀ img : ImageRGB565,
      Blit dpf img w =
        scsiWrite dpf
          ([0xCD, 0, 0, 0, 0, 6, 0x12] ++ le16 (img.Rect.Min.X % 65536).toNat ++
            le16 (img.Rect.Min.Y % 65536).toNat ++
            le16 ((img.Rect.Max.X - 1) % 65536).toNat ++
            le16 ((img.Rect.Max.Y - 1) % 65536).toNat ++ [0x00])
          img.PixRect w) ∧
    (∀ img : ImageRGB565, img.Rect.Max.X = 0 →
      le16 ((img.Rect.Max.X - 1) % 65536).toNat = [0xFF, 0xFF]) ∧
    (∀ img1 img2 : ImageRGB565, img1.PixRect = img2.PixRect →
      img1.Rect.Min.X % 65536 = img2.Rect.Min.X % 65536 →
      img1.Rect.Min.Y % 65536 = img2.Rect.Min.Y % 65536 →
      img1.Rect.Max.X % 65536 = img2.Rect.Max.X % 65536 →
      img1.Rect.Max.Y % 65536 = img2.Rect.Max.Y % 65536 →
      Blit dpf img1 w = Blit dpf img2 w) := by
  refine ⟨fun img => Blit_mod dpf img w, fun img h0 => ?_, ?_⟩
  · rw [h0]
    decide
  · intro img1 img2 hp h1 h2 h3 h4
    have h3' : (img1.Rect.Max.X - 1) % 65536 = (img2.Rect.Max.X - 1) % 65536 := by omega
    have h4' : (img1.Rect.Max.Y - 1) % 65536 = (img2.Rect.Max.Y - 1) % 65536 := by omega
    rw [Blit_mod, Blit_mod, hp, h1, h2, h3', h4']

/-- C20: whenever `scsiRead` returns an error, with or without data,
`GetDimensions` returns width 0 and height 0 with that error; and in every case
the handle has the fields `Width` and `Height` it had before the call. -/
theorem GetDimensions_error_zero (dpf : DPF) (w : World) :
    (∀ data e,
      (scsiRead dpf [0xcd, 0, 0, 0, 0, 2, 0, 0, 0, 0, 0, 0, 0, 0, 0, 0] 5 w).1 =
          some (data, some e) →
        (GetDimensions dpf w).1 = some (0, 0, some e)) ∧
      (GetDimensionsOn dpf w).1.1 = (GetDimensions dpf w).1 ∧
      (GetDimensionsOn dpf w).1.2.Width = dpf.Width ∧
      (GetDimensionsOn dpf w).1.2.Height = dpf.Height := by
  refine ⟨fun data e h => ?_, rfl, rfl, rfl⟩
  have hp : scsiRead dpf [0xcd, 0, 0, 0, 0, 2, 0, 0, 0, 0, 0, 0, 0, 0, 0, 0] 5 w =
      (some (data, some e),
        (scsiRead dpf [0xcd, 0, 0, 0, 0, 2, 0, 0, 0, 0, 0, 0, 0, 0, 0, 0] 5 w).2) :=
    Prod.ext h rfl
  simp only [GetDimensions]
  rw [hp]

/-- Witness of C20: all 5 data bytes are delivered and the status starts with
"USBC". -/
theorem GetDimensions_error_zero_witness :
    (GetDimensions (handle okOut (scriptedIn
        [([], none), ([0x40, 0x01, 0xF0, 0x00, 0x00], none),
          ([0x55, 0x53, 0x42, 0x43, 0, 0, 0, 0, 0, 0, 0, 0, 0], none)]))
      World.start).1 =
      some (0, 0, some (Error.invalidAck [0x55, 0x53, 0x42, 0x43, 0, 0, 0, 0, 0, 0, 0, 0, 0])) :=
  (GetDimensions_error_zero _ World.start).1 (some [0x40, 0x01, 0xF0, 0x00, 0x00]) _ rfl

end Go2dpf
